import Mathlib

/-!
Verification development for the WMS billing engine
(`src/routes/billingEngine.js`): a shallow embedding of the invoice
generation / exchange-rate engine and its store-level operations, with
theorems checking the specification's claims.

Modelling conventions:
* JavaScript `Number` values that hold monetary amounts, rates and
  quantities are modelled as `ℚ` (the engine's arithmetic on them is
  exact rational arithmetic in every scenario the spec fixes).
* SQL rows live in Lean lists kept in primary-key (id-ascending)
  insertion order, so `ORDER BY id ASC` reads are the list itself and
  `ORDER BY id DESC LIMIT 1` / lexicographic orderings are modelled by
  explicit maximum folds.
* `deleted_at IS NULL` is a `deleted : Bool` flag.
* Dates (`YYYY-MM-DD` strings in the source, compared chronologically
  by MySQL) are `Ymd` records compared through their numeric key.
-/

/-- Function `trunc100` from `billingEngine.js` on an already-numeric input:
`Math.floor(value / 100) * 100`. -/
def trunc100 (x : ℚ) : ℚ := ((x / 100).floor : ℚ) * 100

/-- A JavaScript value as it can reach `trunc100(input)`'s
`Number(input || 0)` guard from the billing engine: a number, `NaN`,
`null`, `undefined`, or a boolean. -/
inductive JsVal where
  | num (q : ℚ)
  | nan
  | vnull
  | undef
  | bool (b : Bool)
deriving DecidableEq

/-- JavaScript falsiness for the values of `JsVal`: `0`, `NaN`, `null`,
`undefined` and `false` are falsy. -/
def jsFalsy : JsVal → Bool
  | .num q => decide (q = 0)
  | .nan => true
  | .vnull => true
  | .undef => true
  | .bool b => !b

/-- JavaScript `Number(v)` coercion on `JsVal`; `none` stands for `NaN`. -/
def jsToNumber : JsVal → Option ℚ
  | .num q => some q
  | .nan => none
  | .vnull => some 0
  | .undef => some 0
  | .bool b => some (if b then 1 else 0)

/-- Function `trunc100` from `billingEngine.js` including its input guard:
`const value = Number(input || 0); return Math.floor(value / 100) * 100;`.
(`Number(undefined)` is `NaN` in JavaScript, but `undefined || 0`
short-circuits to `0` first, so the `jsToNumber` row for `undef` is
never reached on this path.) -/
def trunc100J (input : JsVal) : JsVal :=
  let guarded := if jsFalsy input then JsVal.num 0 else input
  match jsToNumber guarded with
  | some q => .num (trunc100 q)
  | none => .nan

/-- A calendar month `YYYY-MM`. -/
structure Ym where
  y : Nat
  m : Nat
deriving DecidableEq

/-- A calendar date `YYYY-MM-DD`. -/
structure Ymd where
  y : Nat
  m : Nat
  d : Nat
deriving DecidableEq

/-- Numeric key of a date; for real dates, comparing keys is exactly
MySQL's chronological `DATE` comparison. -/
def Ymd.toN (x : Ymd) : Nat := x.y * 10000 + x.m * 100 + x.d

/-- Function `monthRange` from `billingEngine.js`: the half-open date range
`[YYYY-MM-01, next-month-01)` of an invoice month. -/
def monthRange (invoiceMonth : Ym) : Ymd × Ymd :=
  (⟨invoiceMonth.y, invoiceMonth.m, 1⟩,
    if invoiceMonth.m = 12 then ⟨invoiceMonth.y + 1, 1, 1⟩
    else ⟨invoiceMonth.y, invoiceMonth.m + 1, 1⟩)

inductive RateStatus where
  | draft
  | active
  | superseded
deriving DecidableEq

inductive PricingPolicy where
  | thbBased
  | krwFixed
deriving DecidableEq

inductive EvStatus where
  | pending
  | invoiced
deriving DecidableEq

inductive InvStatus where
  | draft
  | issued
  | paid
deriving DecidableEq

/-- Row of `exchange_rates`. -/
structure ExchangeRate where
  id : Nat
  rate_date : Ymd
  base_currency : String
  quote_currency : String
  rate : ℚ
  status : RateStatus
  locked : Bool
  deleted : Bool
deriving DecidableEq

/-- Row of `billing_events`. -/
structure BillingEvent where
  id : Nat
  client_id : Nat
  service_code : String
  event_date : Ymd
  qty : ℚ
  pricing_policy : PricingPolicy
  unit_price_thb : Option ℚ
  amount_thb : Option ℚ
  unit_price_krw : Option ℚ
  amount_krw : Option ℚ
  fx_rate_thbkrw : Option ℚ
  status : EvStatus
  invoice_id : Option Nat
  deleted : Bool
deriving DecidableEq

/-- Row of `invoices` (the columns the engine reads or writes). -/
structure Invoice where
  id : Nat
  client_id : Nat
  invoice_month : Ym
  invoice_no : String
  status : InvStatus
  fx_rate_thbkrw : ℚ
  subtotal_krw : ℚ
  vat_krw : ℚ
  total_krw : ℚ
  deleted : Bool
deriving DecidableEq

/-- Row of `invoice_items`. -/
structure InvoiceItem where
  id : Nat
  invoice_id : Nat
  service_code : String
  qty : ℚ
  unit_price_krw : ℚ
  amount_krw : ℚ
  deleted : Bool
deriving DecidableEq

/-- Row of `invoice_sequences`. -/
structure SeqRow where
  id : Nat
  client_id : Nat
  yyyymm : Ym
  last_seq : Nat
  deleted : Bool
deriving DecidableEq

/-- The transactional data store the engine runs against.  Row lists are
in id-ascending insertion order; `next*Id` are the auto-increment
counters. -/
structure Store where
  rates : List ExchangeRate
  events : List BillingEvent
  invoices : List Invoice
  items : List InvoiceItem
  seqs : List SeqRow
  nextInvoiceId : Nat
  nextItemId : Nat
  nextSeqId : Nat
deriving DecidableEq

/-- Domain errors surfaced by the five mutating operations. -/
inductive BillingError where
  | alreadyIssued
  | fxNotFound
  | noPendingEvents
  | notFound
  | invalidStatus
  | eventsNotFound
  | eventsLocked
deriving DecidableEq

/-- Modelled from the spec: `withTransaction` (imported from
`src/services/stock`, which is not part of the provided sources) wraps
each mutating operation in one transaction, and per §5/§7 of the spec
every domain error causes a full rollback — the pre-call store is
returned untouched whenever the body yields an error. -/
def runTx {α : Type} (body : Store → Except BillingError α × Store) (s : Store) :
    Except BillingError α × Store :=
  match body s with
  | (.error e, _) => (.error e, s)
  | (.ok a, s') => (.ok a, s')

/-- The element of maximal `f`-key (ties keep the earlier row), i.e.
`ORDER BY f DESC LIMIT 1` over a result list. -/
def latestBy {α : Type} (f : α → Nat) : List α → Option α
  | [] => none
  | x :: xs => some (xs.foldl (fun a b => if f a < f b then b else a) x)

/-- The invoice lookup opening `POST /billing/invoices/generate`:
`SELECT id, status FROM invoices WHERE client_id = ? AND invoice_month = ?
AND deleted_at IS NULL ORDER BY id DESC LIMIT 1 FOR UPDATE`. -/
def findExistingInvoice (invoices : List Invoice) (clientId : Nat) (im : Ym) :
    Option Invoice :=
  latestBy (·.id)
    (invoices.filter fun i =>
      decide (i.client_id = clientId ∧ i.invoice_month = im ∧ i.deleted = false))

/-- Keeps the better of two rate rows under `ORDER BY rate_date DESC, id DESC`. -/
def betterRate (a b : ExchangeRate) : ExchangeRate :=
  if a.rate_date.toN < b.rate_date.toN ∨
      (a.rate_date.toN = b.rate_date.toN ∧ a.id < b.id) then b else a

/-- Whether a rate row qualifies for the engine's fx lookup on `d`:
`base_currency = 'THB' AND quote_currency = 'KRW' AND deleted_at IS NULL
AND status = 'active' AND rate_date <= ?`. -/
def applicableRate (d : Ymd) (r : ExchangeRate) : Bool :=
  decide (r.base_currency = "THB" ∧ r.quote_currency = "KRW" ∧
    r.deleted = false ∧ r.status = RateStatus.active ∧ r.rate_date.toN ≤ d.toN)

/-- The fx lookup of invoice generation (`findApplicableRate` in the spec):
the qualifying rate row maximal under `ORDER BY rate_date DESC, id DESC`. -/
def findApplicableRate (rates : List ExchangeRate) (d : Ymd) : Option ExchangeRate :=
  match rates.filter (applicableRate d) with
  | [] => none
  | x :: xs => some (xs.foldl betterRate x)

/-- The pending-events read of invoice generation: `WHERE client_id = ?
AND status = 'PENDING' AND deleted_at IS NULL AND event_date >= ? AND
event_date < ? ORDER BY id ASC FOR UPDATE` (the store list is already in
id order). -/
def listPendingEvents (events : List BillingEvent) (clientId : Nat) (f t : Ymd) :
    List BillingEvent :=
  events.filter fun e =>
    decide (e.client_id = clientId ∧ e.status = EvStatus.pending ∧
      e.deleted = false ∧ f.toN ≤ e.event_date.toN ∧ e.event_date.toN < t.toN)

/-- Per-event normalized KRW amount from the generation loop: THB events
convert `amount_thb` (falling back to `unit_price_thb * qty`) through the
frozen rate, KRW events pass `amount_krw` (same fallback) through, both
truncated to the hundred. -/
def normalizedAmount (e : BillingEvent) (fx : ℚ) : ℚ :=
  if e.pricing_policy = PricingPolicy.thbBased then
    let amountThb :=
      match e.amount_thb with
      | some a => a
      | none => e.unit_price_thb.getD 0 * e.qty
    trunc100 (amountThb * fx)
  else
    let amountKrw :=
      match e.amount_krw with
      | some a => a
      | none => e.unit_price_krw.getD 0 * e.qty
    trunc100 amountKrw

/-- One aggregation bucket of the generation loop's `grouped` map. -/
structure SvcGroup where
  service_code : String
  qty : ℚ
  amount_krw : ℚ
deriving DecidableEq

/-- Adds one event's qty/normalized amount into the `grouped` map,
creating the bucket on first sight (JavaScript `Map` iterates in
insertion order, so the bucket list keeps first-seen order). -/
def addToGroups (gs : List SvcGroup) (code : String) (q a : ℚ) : List SvcGroup :=
  if gs.any (fun g => g.service_code == code) then
    gs.map fun g =>
      if g.service_code == code then
        { g with qty := g.qty + q, amount_krw := g.amount_krw + a }
      else g
  else gs ++ [⟨code, q, a⟩]

/-- The `grouped` map after the event loop: per service code, summed qty
and summed normalized amount, in first-seen order. -/
def groupEvents (evs : List BillingEvent) (fx : ℚ) : List SvcGroup :=
  evs.foldl (fun gs e => addToGroups gs e.service_code e.qty (normalizedAmount e fx)) []

/-- The per-event `UPDATE billing_events SET amount_krw = ?,
fx_rate_thbkrw = ?, status = 'INVOICED', invoice_id = ? WHERE id = ?`. -/
def stampEvent (events : List BillingEvent) (eid : Nat) (amount fx : ℚ) (invId : Nat) :
    List BillingEvent :=
  events.map fun ev =>
    if ev.id = eid then
      { ev with
        amount_krw := some amount, fx_rate_thbkrw := some fx,
        status := EvStatus.invoiced, invoice_id := some invId }
    else ev

/-- The generation loop's event updates, one per selected event in order. -/
def stampEvents (events : List BillingEvent) (selected : List BillingEvent)
    (fx : ℚ) (invId : Nat) : List BillingEvent :=
  selected.foldl (fun acc e => stampEvent acc e.id (normalizedAmount e fx) fx invId) events

/-- The invoice item inserted for one aggregation bucket:
`lineAmount = trunc100(amount)`, `unitDisplay = qty > 0 ?
trunc100(lineAmount / qty) : lineAmount`. -/
def mkGroupItem (invId itemId : Nat) (g : SvcGroup) : InvoiceItem :=
  let lineAmount := trunc100 g.amount_krw
  let unitDisplay := if 0 < g.qty then trunc100 (lineAmount / g.qty) else lineAmount
  { id := itemId, invoice_id := invId, service_code := g.service_code, qty := g.qty,
    unit_price_krw := unitDisplay, amount_krw := lineAmount, deleted := false }

/-- The group items inserted by the generation loop, with consecutive
auto-increment ids. -/
def buildGroupItems (invId : Nat) : Nat → List SvcGroup → List InvoiceItem
  | _, [] => []
  | itemId, g :: rest => mkGroupItem invId itemId g :: buildGroupItems invId (itemId + 1) rest

/-- The running `subtotalKrw` accumulated over the group loop
(`subtotalKrw += lineAmount` with `lineAmount = trunc100(amount)`). -/
def groupsSubtotal (gs : List SvcGroup) : ℚ :=
  gs.foldl (fun acc g => acc + trunc100 g.amount_krw) 0

/-- Function `resolveInvoiceSequence` from `billingEngine.js`: under lock, create
the (client, yyyymm) counter at 1 if absent, else increment and persist. -/
def resolveInvoiceSequence (s : Store) (clientId : Nat) (ym : Ym) : Nat × Store :=
  match (s.seqs.filter fun r =>
      decide (r.client_id = clientId ∧ r.yyyymm = ym ∧ r.deleted = false)).head? with
  | none =>
    (1, { s with
      seqs := s.seqs ++
        [{ id := s.nextSeqId
           client_id := clientId
           yyyymm := ym
           last_seq := 1
           deleted := false }],
      nextSeqId := s.nextSeqId + 1 })
  | some row =>
    let nextSeq := row.last_seq + 1
    (nextSeq,
      { s with seqs := s.seqs.map fun r =>
          if r.id = row.id then { r with last_seq := nextSeq } else r })

/-- The numeric `yyyymm` of a month (`"2026-01".replace("-","")` gives
`"202601"`; for four-digit years this is the number `y * 100 + m`). -/
def yyyymmNum (ym : Ym) : Nat := ym.y * 100 + ym.m

/-- Zero-pads a sequence number to four digits (`String(n).padStart(4, "0")`). -/
def padSeq4 (n : Nat) : String :=
  let s := toString n
  if s.length < 4 then String.mk (List.replicate (4 - s.length) '0') ++ s else s

/-- Invoice number `KRW-{client}-{yyyymm}-{seq:04d}`. -/
def mkInvoiceNo (clientId : Nat) (ym : Ym) (seq : Nat) : String :=
  "KRW-" ++ toString clientId ++ "-" ++ toString (yyyymmNum ym) ++ "-" ++ padSeq4 seq

/-- Outcome of `POST /billing/invoices/generate` on success. -/
inductive GenOutcome where
  | reused (invoice_id : Nat)
  | generated (invoice : Invoice) (createdItems : List InvoiceItem)
      (eventsCount : Nat) (fxRateId : Nat)
deriving DecidableEq

/-- Request payload of `POST /billing/invoices/generate` (after zod
validation). -/
structure GenArgs where
  client_id : Nat
  invoice_month : Ym
  invoice_date : Ymd
  regenerate_draft : Bool
deriving DecidableEq

/-- Locks the selected exchange rate:
`UPDATE exchange_rates SET locked = 1 WHERE id = ?`. -/
def lockRate (s : Store) (rateId : Nat) : Store :=
  { s with rates := s.rates.map fun r => if r.id = rateId then { r with locked := true } else r }

/-- The fresh-generation path of `POST /billing/invoices/generate`,
entered after the existing-invoice check: resolve and lock the rate, load
pending events, allocate the sequence number, insert the draft invoice,
stamp events, insert group items and the synthetic VAT item, and persist
the totals.  (The closing `SELECT` re-reads the invoice by its unique
primary key, which returns the row as written here.) -/
def generateFresh (s : Store) (args : GenArgs) : Except BillingError GenOutcome × Store :=
  match findApplicableRate s.rates args.invoice_date with
  | none => (.error .fxNotFound, s)
  | some fxRow =>
    let fx := fxRow.rate
    let s1 := lockRate s fxRow.id
    let rng := monthRange args.invoice_month
    let evs := listPendingEvents s1.events args.client_id rng.1 rng.2
    if evs.isEmpty then (.error .noPendingEvents, s1)
    else
      let seqRes := resolveInvoiceSequence s1 args.client_id args.invoice_month
      let invoiceNo := mkInvoiceNo args.client_id args.invoice_month seqRes.1
      let s2 := seqRes.2
      let invId := s2.nextInvoiceId
      let inv0 : Invoice := { id := invId, client_id := args.client_id
                              invoice_month := args.invoice_month, invoice_no := invoiceNo
                              status := .draft, fx_rate_thbkrw := fx
                              subtotal_krw := 0, vat_krw := 0, total_krw := 0
                              deleted := false }
      let s3 := { s2 with invoices := s2.invoices ++ [inv0], nextInvoiceId := invId + 1 }
      let s4 := { s3 with events := stampEvents s3.events evs fx invId }
      let gs := groupEvents evs fx
      let groupItems := buildGroupItems invId s4.nextItemId gs
      let subtotalKrw := trunc100 (groupsSubtotal gs)
      let vatKrw := trunc100 (subtotalKrw * (7 / 100))
      let totalKrw := trunc100 (subtotalKrw + vatKrw)
      let vatItem : InvoiceItem := { id := s4.nextItemId + gs.length
                                     invoice_id := invId
                                     service_code := "VAT_7"
                                     qty := 1
                                     unit_price_krw := vatKrw
                                     amount_krw := vatKrw
                                     deleted := false }
      let createdItems := groupItems ++ [vatItem]
      let s5 := { s4 with
        items := s4.items ++ createdItems,
        nextItemId := s4.nextItemId + gs.length + 1 }
      let invFinal := { inv0 with
        subtotal_krw := subtotalKrw, vat_krw := vatKrw, total_krw := totalKrw }
      let s6 := { s5 with invoices := s5.invoices.map fun i =>
          if i.id = invId then
            { i with subtotal_krw := subtotalKrw, vat_krw := vatKrw, total_krw := totalKrw }
          else i }
      (.ok (.generated invFinal createdItems evs.length fxRow.id), s6)

/-- The regeneration branch taken for a still-draft invoice with
`regenerate_draft = 1`: revert its events to PENDING (clearing link and
rate), soft-delete its items, soft-delete the invoice itself. -/
def regeneratePhase (s : Store) (existingId : Nat) : Store :=
  { s with
    events := s.events.map fun ev =>
      if ev.invoice_id = some existingId ∧ ev.deleted = false then
        { ev with status := EvStatus.pending, invoice_id := none, fx_rate_thbkrw := none }
      else ev,
    items := s.items.map fun it =>
      if it.invoice_id = existingId ∧ it.deleted = false then { it with deleted := true } else it,
    invoices := s.invoices.map fun i =>
      if i.id = existingId then { i with deleted := true } else i }

/-- Transaction body of `POST /billing/invoices/generate`. -/
def generateBody (args : GenArgs) (s : Store) : Except BillingError GenOutcome × Store :=
  match findExistingInvoice s.invoices args.client_id args.invoice_month with
  | some existing =>
    if existing.status ≠ InvStatus.draft then (.error .alreadyIssued, s)
    else if args.regenerate_draft = false then (.ok (.reused existing.id), s)
    else generateFresh (regeneratePhase s existing.id) args
  | none => generateFresh s args

/-- Route `POST /billing/invoices/generate` (`generateInvoice` in the spec's
interface list). -/
def generateInvoice (s : Store) (args : GenArgs) : Except BillingError GenOutcome × Store :=
  runTx (generateBody args) s

/-- The store an invocation of `generateInvoice` actually generates
against: the original store, or — when a draft is found and
`regenerate_draft` is set — the store after the regeneration branch. -/
def genBaseStore (s : Store) (args : GenArgs) : Store :=
  match findExistingInvoice s.invoices args.client_id args.invoice_month with
  | some existing =>
    if existing.status = InvStatus.draft ∧ args.regenerate_draft = true then
      regeneratePhase s existing.id
    else s
  | none => s

/-- The invoice lookup shared by the issue / mark-paid / duplicate
routes: `SELECT ... FROM invoices WHERE id = ? AND deleted_at IS NULL
LIMIT 1 FOR UPDATE`. -/
def lookupInvoice (s : Store) (invoiceId : Nat) : Option Invoice :=
  (s.invoices.filter fun i => decide (i.id = invoiceId ∧ i.deleted = false)).head?

/-- Transaction body of `POST /billing/invoices/:id/issue`. -/
def issueBody (invoiceId : Nat) (s : Store) : Except BillingError (Nat × InvStatus) × Store :=
  match lookupInvoice s invoiceId with
  | none => (.error .notFound, s)
  | some inv =>
    if inv.status ≠ InvStatus.draft then (.error .invalidStatus, s)
    else
      (.ok (invoiceId, .issued),
        { s with invoices := s.invoices.map fun i =>
            if i.id = invoiceId then { i with status := InvStatus.issued } else i })

/-- Route `POST /billing/invoices/:id/issue`. -/
def issueInvoice (s : Store) (invoiceId : Nat) : Except BillingError (Nat × InvStatus) × Store :=
  runTx (issueBody invoiceId) s

/-- Transaction body of `POST /billing/invoices/:id/mark-paid`. -/
def markPaidBody (invoiceId : Nat) (s : Store) : Except BillingError (Nat × InvStatus) × Store :=
  match lookupInvoice s invoiceId with
  | none => (.error .notFound, s)
  | some inv =>
    if inv.status ≠ InvStatus.issued then (.error .invalidStatus, s)
    else
      (.ok (invoiceId, .paid),
        { s with invoices := s.invoices.map fun i =>
            if i.id = invoiceId then { i with status := InvStatus.paid } else i })

/-- Route `POST /billing/invoices/:id/mark-paid`. -/
def markInvoicePaid (s : Store) (invoiceId : Nat) : Except BillingError (Nat × InvStatus) × Store :=
  runTx (markPaidBody invoiceId) s

/-- Copies a source invoice's items onto a new invoice with fresh ids
(`INSERT INTO invoice_items ... SELECT ?, service_code, ... FROM
invoice_items WHERE invoice_id = ? AND deleted_at IS NULL`). -/
def copyItems (newInvId : Nat) : Nat → List InvoiceItem → List InvoiceItem
  | _, [] => []
  | itemId, it :: rest =>
    { it with id := itemId, invoice_id := newInvId } :: copyItems newInvId (itemId + 1) rest

/-- Transaction body of `POST /billing/invoices/:id/duplicate-admin`. -/
def duplicateBody (sourceId : Nat) (s : Store) : Except BillingError Invoice × Store :=
  match lookupInvoice s sourceId with
  | none => (.error .notFound, s)
  | some src =>
    if src.status = InvStatus.draft then (.error .invalidStatus, s)
    else
      let seqRes := resolveInvoiceSequence s src.client_id src.invoice_month
      let s1 := seqRes.2
      let newNo := mkInvoiceNo src.client_id src.invoice_month seqRes.1
      let newId := s1.nextInvoiceId
      let newInv := { src with
        id := newId, invoice_no := newNo,
        status := InvStatus.draft, deleted := false }
      let s2 := { s1 with invoices := s1.invoices ++ [newInv], nextInvoiceId := newId + 1 }
      let srcItems := s2.items.filter fun it =>
        decide (it.invoice_id = sourceId ∧ it.deleted = false)
      let s3 := { s2 with
        items := s2.items ++ copyItems newId s2.nextItemId srcItems,
        nextItemId := s2.nextItemId + srcItems.length }
      (.ok newInv, s3)

/-- Route `POST /billing/invoices/:id/duplicate-admin`. -/
def duplicateInvoiceForAdmin (s : Store) (sourceId : Nat) :
    Except BillingError Invoice × Store :=
  runTx (duplicateBody sourceId) s

/-- The locked rows read by `POST /billing/events/mark-pending`:
targeted billing events that exist (`id IN (?) AND deleted_at IS NULL`). -/
def targetedEvents (s : Store) (ids : List Nat) : List BillingEvent :=
  s.events.filter fun e => decide (e.id ∈ ids ∧ e.deleted = false)

/-- Status of the invoice the `LEFT JOIN invoices i ON i.id =
be.invoice_id AND i.deleted_at IS NULL` attaches to an event (`none`
when the event has no linked, non-deleted invoice). -/
def ownedInvoiceStatus (s : Store) (e : BillingEvent) : Option InvStatus :=
  match e.invoice_id with
  | none => none
  | some iid =>
    ((s.invoices.filter fun i => decide (i.id = iid ∧ i.deleted = false)).head?).map (·.status)

/-- Whether an event blocks mark-pending: its joined invoice status is
`issued` or `paid`. -/
def eventLocked (s : Store) (e : BillingEvent) : Bool :=
  decide (ownedInvoiceStatus s e = some InvStatus.issued ∨
    ownedInvoiceStatus s e = some InvStatus.paid)

/-- Transaction body of `POST /billing/events/mark-pending`. -/
def markPendingBody (ids : List Nat) (s : Store) : Except BillingError Nat × Store :=
  let rows := targetedEvents s ids
  if rows.isEmpty then (.error .eventsNotFound, s)
  else if (rows.filter (eventLocked s)).isEmpty = false then (.error .eventsLocked, s)
  else
    (.ok rows.length,
      { s with events := s.events.map fun e =>
          if e.id ∈ ids ∧ e.deleted = false then
            { e with status := EvStatus.pending, invoice_id := none, fx_rate_thbkrw := none }
          else e })

/-- Route `POST /billing/events/mark-pending` (`markEventsPending` in the
spec's interface list). -/
def markEventsPending (s : Store) (ids : List Nat) : Except BillingError Nat × Store :=
  runTx (markPendingBody ids) s

/-! ### Arithmetic facts about `trunc100` -/

theorem trunc100_eq_intFloor (x : ℚ) : trunc100 x = (⌊x / 100⌋ : ℚ) * 100 := by
  unfold trunc100
  rw [Rat.floor_def', ← Rat.floor_def]

/-- Pins down `trunc100` on a concrete value from floor bounds. -/
theorem trunc100_eval (k : ℤ) (x : ℚ) (h1 : (k : ℚ) * 100 ≤ x) (h2 : x < ((k : ℚ) + 1) * 100) :
    trunc100 x = (k : ℚ) * 100 := by
  rw [trunc100_eq_intFloor]
  have hk : ⌊x / 100⌋ = k := by
    rw [Int.floor_eq_iff]
    constructor
    · rw [le_div_iff₀ (by norm_num : (0:ℚ) < 100)]
      exact h1
    · rw [div_lt_iff₀ (by norm_num : (0:ℚ) < 100)]
      linarith
  rw [hk]

/-- A rational that is an integer multiple of 100. -/
def Mult100 (x : ℚ) : Prop := ∃ k : ℤ, x = (k : ℚ) * 100

theorem mult100_zero : Mult100 0 := ⟨0, by norm_num⟩

theorem mult100_add {x y : ℚ} (hx : Mult100 x) (hy : Mult100 y) : Mult100 (x + y) := by
  obtain ⟨k, hk⟩ := hx
  obtain ⟨m, hm⟩ := hy
  exact ⟨k + m, by push_cast [hk, hm]; ring⟩

theorem mult100_trunc100 (x : ℚ) : Mult100 (trunc100 x) :=
  ⟨⌊x / 100⌋, trunc100_eq_intFloor x⟩

theorem trunc100_fix {x : ℚ} (hx : Mult100 x) : trunc100 x = x := by
  obtain ⟨k, rfl⟩ := hx
  rw [trunc100_eq_intFloor]
  have h : ((k : ℚ) * 100) / 100 = (k : ℚ) := by field_simp
  rw [h, Int.floor_intCast]

theorem trunc100_le (x : ℚ) : trunc100 x ≤ x := by
  rw [trunc100_eq_intFloor]
  have h := Int.floor_le (x / 100)
  have h2 : (⌊x / 100⌋ : ℚ) * 100 ≤ (x / 100) * 100 :=
    mul_le_mul_of_nonneg_right h (by norm_num)
  calc (⌊x / 100⌋ : ℚ) * 100 ≤ (x / 100) * 100 := h2
    _ = x := by field_simp

theorem trunc100_zero : trunc100 0 = 0 := trunc100_fix mult100_zero

/-- C8: for every monetary amount `x` the engine computes,
`truncateToHundred(x)` is an exact multiple of 100 and never exceeds `x`
(`trunc100` is `floor(x / 100) * 100`). -/
theorem trunc100_law (x : ℚ) :
    (∃ k : ℤ, trunc100 x = (k : ℚ) * 100) ∧ trunc100 x ≤ x :=
  ⟨mult100_trunc100 x, trunc100_le x⟩

/-- C10: `trunc100` returns `0` for `null`, `undefined`, `NaN` and every
other falsy input, it returns a number on every input it can receive
from the engine, and a billing event with no monetary fields at all
normalizes to exactly `0`. -/
theorem trunc100J_total :
    (∀ v : JsVal, jsFalsy v = true → trunc100J v = JsVal.num 0) ∧
    (∀ v : JsVal, ∃ q : ℚ, trunc100J v = JsVal.num q) ∧
    (∀ (e : BillingEvent) (fx : ℚ),
      e.amount_thb = none → e.unit_price_thb = none →
      e.amount_krw = none → e.unit_price_krw = none →
      normalizedAmount e fx = 0) := by
  refine ⟨?_, ?_, ?_⟩
  · intro v h
    cases v with
    | num q =>
      have hq : q = 0 := by simpa [jsFalsy] using h
      simp [trunc100J, jsFalsy, jsToNumber, hq, trunc100_zero]
    | nan => simp [trunc100J, jsFalsy, jsToNumber, trunc100_zero]
    | vnull => simp [trunc100J, jsFalsy, jsToNumber, trunc100_zero]
    | undef => simp [trunc100J, jsFalsy, jsToNumber, trunc100_zero]
    | bool b =>
      have hb : b = false := by simpa [jsFalsy] using h
      simp [trunc100J, jsFalsy, jsToNumber, hb, trunc100_zero]
  · intro v
    cases v with
    | num q =>
      by_cases hq : q = 0
      · exact ⟨trunc100 0, by simp [trunc100J, jsFalsy, jsToNumber, hq]⟩
      · exact ⟨trunc100 q, by simp [trunc100J, jsFalsy, jsToNumber, hq]⟩
    | nan => exact ⟨0, by simp [trunc100J, jsFalsy, jsToNumber, trunc100_zero]⟩
    | vnull => exact ⟨0, by simp [trunc100J, jsFalsy, jsToNumber, trunc100_zero]⟩
    | undef => exact ⟨0, by simp [trunc100J, jsFalsy, jsToNumber, trunc100_zero]⟩
    | bool b =>
      cases b with
      | false => exact ⟨0, by simp [trunc100J, jsFalsy, jsToNumber, trunc100_zero]⟩
      | true => exact ⟨trunc100 1, by simp [trunc100J, jsFalsy, jsToNumber]⟩
  · intro e fx h1 h2 h3 h4
    unfold normalizedAmount
    rcases hp : e.pricing_policy with _ | _ <;>
      simp [hp, h1, h2, h3, h4, trunc100_zero]

/-- Witness for C10 at concrete inputs. -/
theorem trunc100J_total_witness :
    trunc100J JsVal.vnull = JsVal.num 0 ∧ trunc100J JsVal.nan = JsVal.num 0 :=
  ⟨trunc100J_total.1 JsVal.vnull rfl, trunc100J_total.1 JsVal.nan rfl⟩

/-! ### Transactional rollback (claim C3) -/

theorem runTx_error {α : Type} (body : Store → Except BillingError α × Store) (s : Store)
    (e : BillingError) (s' : Store) (h : runTx body s = (.error e, s')) : s' = s := by
  unfold runTx at h
  rcases hb : body s with ⟨r, s1⟩
  rw [hb] at h
  cases r with
  | error e' => exact (Prod.mk.injEq _ _ _ _ ▸ h).2.symm
  | ok a => simp at h

/-- C3: every mutating operation is atomic — whenever it surfaces a
domain error, the returned store is exactly the pre-call store (so a
`generateInvoice` failing with `noPendingEvents` leaves no invoice row
and leaves the selected rate's `locked` flag as it was). -/
theorem mutating_ops_atomic :
    (∀ (s : Store) (args : GenArgs) (e : BillingError) (s' : Store),
      generateInvoice s args = (.error e, s') → s' = s) ∧
    (∀ (s : Store) (i : Nat) (e : BillingError) (s' : Store),
      issueInvoice s i = (.error e, s') → s' = s) ∧
    (∀ (s : Store) (i : Nat) (e : BillingError) (s' : Store),
      markInvoicePaid s i = (.error e, s') → s' = s) ∧
    (∀ (s : Store) (i : Nat) (e : BillingError) (s' : Store),
      duplicateInvoiceForAdmin s i = (.error e, s') → s' = s) ∧
    (∀ (s : Store) (ids : List Nat) (e : BillingError) (s' : Store),
      markEventsPending s ids = (.error e, s') → s' = s) :=
  ⟨fun s _ e s' h => runTx_error _ s e s' h,
   fun s _ e s' h => runTx_error _ s e s' h,
   fun s _ e s' h => runTx_error _ s e s' h,
   fun s _ e s' h => runTx_error _ s e s' h,
   fun s _ e s' h => runTx_error _ s e s' h⟩

/-- A store holding one active, unlocked THB→KRW rate and no billing
events at all. -/
def npStore : Store :=
  { rates := [{ id := 1
                rate_date := ⟨2026, 1, 1⟩
                base_currency := "THB"
                quote_currency := "KRW"
                rate := 35
                status := RateStatus.active
                locked := false
                deleted := false }]
    events := []
    invoices := []
    items := []
    seqs := []
    nextInvoiceId := 1
    nextItemId := 1
    nextSeqId := 1 }

def npArgs : GenArgs :=
  { client_id := 1
    invoice_month := ⟨2026, 1⟩
    invoice_date := ⟨2026, 1, 31⟩
    regenerate_draft := false }

theorem npStore_generate_eval :
    generateInvoice npStore npArgs = (.error .noPendingEvents, npStore) := rfl

/-- Witness for C3: a generation over a store with a usable rate but no
pending events fails with `noPendingEvents` and hands back the original
store — in particular its rate is still unlocked. -/
theorem mutating_ops_atomic_witness :
    (generateInvoice npStore npArgs).2 = npStore ∧
    (generateInvoice npStore npArgs).2.rates.map (·.locked) = [false] := by
  have h := mutating_ops_atomic.1 npStore npArgs .noPendingEvents npStore npStore_generate_eval
  constructor
  · rw [npStore_generate_eval]
  · rw [npStore_generate_eval]
    rfl

/-! ### Idempotent reuse of a draft invoice (claim C4) -/

/-- C4 (amended): when the invoice the engine's lookup selects — the
highest-id non-deleted invoice of (client, month) — is a draft and
`regenerate_draft` is off, generation returns exactly that invoice id
with `reused = true` and leaves the store untouched, so calling twice
returns the same invoice id both times. -/
theorem generate_reuses_latest_draft (s : Store) (args : GenArgs) (inv : Invoice)
    (hfound : findExistingInvoice s.invoices args.client_id args.invoice_month = some inv)
    (hdraft : inv.status = InvStatus.draft)
    (hregen : args.regenerate_draft = false) :
    generateInvoice s args = (.ok (.reused inv.id), s) ∧
    generateInvoice (generateInvoice s args).2 args = (.ok (.reused inv.id), s) := by
  have h1 : generateInvoice s args = (.ok (.reused inv.id), s) := by
    unfold generateInvoice runTx generateBody
    rw [hfound]
    simp [hdraft, hregen]
  exact ⟨h1, by rw [h1]; exact h1⟩

/-- Base store for the C4 counterexample: one issued invoice for
(client 1, 2026-01). -/
def cx4Base : Store :=
  { rates := []
    events := []
    invoices := [{ id := 1
                   client_id := 1
                   invoice_month := ⟨2026, 1⟩
                   invoice_no := "KRW-1-202601-0001"
                   status := InvStatus.issued
                   fx_rate_thbkrw := 35
                   subtotal_krw := 0
                   vat_krw := 0
                   total_krw := 0
                   deleted := false }]
    items := []
    seqs := []
    nextInvoiceId := 2
    nextItemId := 1
    nextSeqId := 1 }

/-- A reachable store where a non-deleted draft exists for
(client 1, 2026-01) but is *not* the highest-id invoice of the pair:
duplicate the issued invoice twice (drafts 2 and 3), then issue draft 3. -/
def cx4Store : Store :=
  (issueInvoice
    (duplicateInvoiceForAdmin (duplicateInvoiceForAdmin cx4Base 1).2 1).2 3).2

def cx4Args : GenArgs :=
  { client_id := 1
    invoice_month := ⟨2026, 1⟩
    invoice_date := ⟨2026, 1, 31⟩
    regenerate_draft := false }

/-- Counterexample to C4 as stated: in `cx4Store` a non-deleted draft
invoice for (client 1, 2026-01) exists (invoice 2), yet `generateInvoice`
with `regenerate_draft = false` does not return it — it fails with
`alreadyIssued` because the highest-id invoice of the pair is issued. -/
theorem generate_reuse_counterexample :
    (cx4Store.invoices.filter fun i =>
      decide (i.client_id = 1 ∧ i.invoice_month = ⟨2026, 1⟩ ∧
        i.deleted = false ∧ i.status = InvStatus.draft)) =
      [{ id := 2
         client_id := 1
         invoice_month := ⟨2026, 1⟩
         invoice_no := mkInvoiceNo 1 ⟨2026, 1⟩ 1
         status := InvStatus.draft
         fx_rate_thbkrw := 35
         subtotal_krw := 0
         vat_krw := 0
         total_krw := 0
         deleted := false }] ∧
    generateInvoice cx4Store cx4Args = (.error .alreadyIssued, cx4Store) := ⟨rfl, rfl⟩

/-- Store with a single draft invoice for (client 1, 2026-01), for the
C4 witness. -/
def w4Store : Store :=
  { rates := []
    events := []
    invoices := [{ id := 5
                   client_id := 1
                   invoice_month := ⟨2026, 1⟩
                   invoice_no := "KRW-1-202601-0001"
                   status := InvStatus.draft
                   fx_rate_thbkrw := 35
                   subtotal_krw := 4600
                   vat_krw := 300
                   total_krw := 4900
                   deleted := false }]
    items := []
    seqs := []
    nextInvoiceId := 6
    nextItemId := 1
    nextSeqId := 1 }

/-- Witness for C4 (amended) on a store whose only invoice for the pair
is a draft: both calls reuse invoice 5. -/
theorem generate_reuses_latest_draft_witness :
    generateInvoice w4Store cx4Args = (.ok (.reused 5), w4Store) ∧
    generateInvoice (generateInvoice w4Store cx4Args).2 cx4Args = (.ok (.reused 5), w4Store) :=
  generate_reuses_latest_draft w4Store cx4Args
    { id := 5
      client_id := 1
      invoice_month := ⟨2026, 1⟩
      invoice_no := "KRW-1-202601-0001"
      status := InvStatus.draft
      fx_rate_thbkrw := 35
      subtotal_krw := 4600
      vat_krw := 300
      total_krw := 4900
      deleted := false } rfl rfl rfl

/-! ### Exchange-rate selection (claim C6) -/

/-- The ordering `ORDER BY rate_date DESC, id DESC` selects by:
`a` ranks no higher than `b`. -/
def fxPriority (a b : ExchangeRate) : Prop :=
  a.rate_date.toN < b.rate_date.toN ∨
    (a.rate_date.toN = b.rate_date.toN ∧ a.id ≤ b.id)

theorem fxPriority_refl (a : ExchangeRate) : fxPriority a a :=
  Or.inr ⟨rfl, le_refl _⟩

theorem fxPriority_trans {a b c : ExchangeRate}
    (hab : fxPriority a b) (hbc : fxPriority b c) : fxPriority a c := by
  unfold fxPriority at *
  omega

theorem betterRate_left (a b : ExchangeRate) : fxPriority a (betterRate a b) := by
  unfold betterRate fxPriority
  split
  · next h => omega
  · exact fxPriority_refl a

theorem betterRate_right (a b : ExchangeRate) : fxPriority b (betterRate a b) := by
  unfold betterRate fxPriority
  split
  · exact fxPriority_refl b
  · next h =>
    push_neg at h
    rcases Nat.lt_or_ge b.rate_date.toN a.rate_date.toN with hlt | hge
    · exact Or.inl hlt
    · have hEq : a.rate_date.toN = b.rate_date.toN := le_antisymm hge h.1
      exact Or.inr ⟨hEq.symm, h.2 hEq⟩

theorem betterRate_mem (a b : ExchangeRate) : betterRate a b = a ∨ betterRate a b = b := by
  unfold betterRate
  split
  · exact Or.inr rfl
  · exact Or.inl rfl

theorem foldl_betterRate_mem : ∀ (xs : List ExchangeRate) (x : ExchangeRate),
    xs.foldl betterRate x ∈ x :: xs := by
  intro xs
  induction xs with
  | nil => intro x; exact List.mem_singleton.mpr rfl
  | cons z rest ih =>
    intro x
    have h := ih (betterRate x z)
    rcases betterRate_mem x z with hb | hb <;>
      · rw [List.foldl_cons]
        rcases List.mem_cons.mp h with h1 | h1
        · rw [h1, hb]; simp
        · simp [h1]

theorem foldl_betterRate_ge : ∀ (xs : List ExchangeRate) (x y : ExchangeRate),
    y ∈ x :: xs → fxPriority y (xs.foldl betterRate x) := by
  intro xs
  induction xs with
  | nil =>
    intro x y hy
    rw [List.mem_singleton.mp hy]
    exact fxPriority_refl x
  | cons z rest ih =>
    intro x y hy
    rw [List.foldl_cons]
    rcases List.mem_cons.mp hy with h1 | h1
    · subst h1
      exact fxPriority_trans (betterRate_left y z)
        (ih (betterRate y z) (betterRate y z) (List.mem_cons_self _ _))
    · rcases List.mem_cons.mp h1 with h2 | h2
      · subst h2
        exact fxPriority_trans (betterRate_right x y)
          (ih (betterRate x y) (betterRate x y) (List.mem_cons_self _ _))
      · exact ih (betterRate x z) y (List.mem_cons_of_mem _ h2)

theorem genBaseStore_rates (s : Store) (args : GenArgs) :
    (genBaseStore s args).rates = s.rates := by
  unfold genBaseStore regeneratePhase
  split <;> [skip; rfl]
  split <;> rfl

/-- C6: the engine's fx lookup returns an active, non-deleted THB→KRW
rate dated on or before the invoice date that is maximal under
(rate_date, id); and when no such rate exists (at the point generation
performs the lookup), generation fails with `fxNotFound` and creates
nothing — the store is unchanged. -/
theorem fx_rate_selection :
    (∀ (rates : List ExchangeRate) (d : Ymd) (r : ExchangeRate),
      findApplicableRate rates d = some r →
        r ∈ rates ∧ applicableRate d r = true ∧
        ∀ r' ∈ rates, applicableRate d r' = true → fxPriority r' r) ∧
    (∀ (s : Store) (args : GenArgs),
      (findExistingInvoice s.invoices args.client_id args.invoice_month = none ∨
        (∃ ex, findExistingInvoice s.invoices args.client_id args.invoice_month = some ex ∧
          ex.status = InvStatus.draft ∧ args.regenerate_draft = true)) →
      findApplicableRate s.rates args.invoice_date = none →
      generateInvoice s args = (.error .fxNotFound, s)) := by
  constructor
  · intro rates d r hfind
    unfold findApplicableRate at hfind
    rcases hfil : rates.filter (applicableRate d) with _ | ⟨x, xs⟩
    · rw [hfil] at hfind; simp at hfind
    · rw [hfil] at hfind
      have hr : r = xs.foldl betterRate x := by
        simpa using hfind.symm
      have hmem : r ∈ x :: xs := hr ▸ foldl_betterRate_mem xs x
      have hmemf : r ∈ rates.filter (applicableRate d) := hfil ▸ hmem
      have hrmem := List.mem_filter.mp hmemf
      refine ⟨hrmem.1, hrmem.2, ?_⟩
      intro r' hr' hap
      have h' : r' ∈ rates.filter (applicableRate d) := List.mem_filter.mpr ⟨hr', hap⟩
      rw [hfil] at h'
      exact hr ▸ foldl_betterRate_ge xs x r' h'
  · intro s args hreach hnone
    unfold generateInvoice runTx generateBody
    rcases hreach with hcase | ⟨ex, hex, hdraft, hregen⟩
    · rw [hcase]
      unfold generateFresh
      rw [hnone]
    · rw [hex]
      simp only [hdraft, hregen]
      have hrates : (regeneratePhase s ex.id).rates = s.rates := rfl
      unfold generateFresh
      rw [hrates, hnone]
      simp [hdraft]

/-! ### Invoice lifecycle state machine (claim C7) -/

/-- Rank of an invoice status: draft = 0 < issued = 1 < paid = 2. -/
def statusRank : InvStatus → Nat
  | .draft => 0
  | .issued => 1
  | .paid => 2

/-- First invoice row carrying a given id (rows keep their status even
when soft-deleted). -/
def findInvAny (l : List Invoice) (i : Nat) : Option Invoice :=
  (l.filter fun v => decide (v.id = i)).head?

theorem findInvAny_cons (x : Invoice) (xs : List Invoice) (i : Nat) :
    findInvAny (x :: xs) i = if x.id = i then some x else findInvAny xs i := by
  unfold findInvAny
  by_cases h : x.id = i <;> simp [List.filter_cons, h]

theorem findInvAny_mem {l : List Invoice} {i : Nat} {a : Invoice}
    (h : findInvAny l i = some a) : a ∈ l ∧ a.id = i := by
  induction l with
  | nil => simp [findInvAny] at h
  | cons x xs ih =>
    rw [findInvAny_cons] at h
    by_cases hx : x.id = i
    · rw [if_pos hx] at h
      cases h
      exact ⟨List.mem_cons_self _ _, hx⟩
    · rw [if_neg hx] at h
      have := ih h
      exact ⟨List.mem_cons_of_mem _ this.1, this.2⟩

theorem findInvAny_map {f : Invoice → Invoice} (hid : ∀ v, (f v).id = v.id) :
    ∀ (l : List Invoice) (i : Nat), findInvAny (l.map f) i = (findInvAny l i).map f := by
  intro l i
  induction l with
  | nil => rfl
  | cons x xs ih =>
    rw [List.map_cons, findInvAny_cons, findInvAny_cons, hid x]
    by_cases hx : x.id = i
    · rw [if_pos hx, if_pos hx]; rfl
    · rw [if_neg hx, if_neg hx, ih]

theorem findInvAny_append_some {l : List Invoice} {i : Nat} {a : Invoice}
    (h : findInvAny l i = some a) (l₂ : List Invoice) :
    findInvAny (l ++ l₂) i = some a := by
  induction l with
  | nil => simp [findInvAny] at h
  | cons x xs ih =>
    rw [List.cons_append, findInvAny_cons]
    rw [findInvAny_cons] at h
    by_cases hx : x.id = i
    · rw [if_pos hx]; rw [if_pos hx] at h; exact h
    · rw [if_neg hx]; rw [if_neg hx] at h; exact ih h

/-- Every invoice id present before remains present with a
rank-no-smaller status. -/
def presMono (l l' : List Invoice) : Prop :=
  ∀ (i : Nat) (a : Invoice), findInvAny l i = some a →
    ∃ b, findInvAny l' i = some b ∧ statusRank a.status ≤ statusRank b.status

/-- No invoice's status rank ever decreases between two stores. -/
def invoicesMono (l l' : List Invoice) : Prop :=
  ∀ (i : Nat) (a b : Invoice), findInvAny l i = some a → findInvAny l' i = some b →
    statusRank a.status ≤ statusRank b.status

theorem invoicesMono_of_presMono {l l' : List Invoice} (h : presMono l l') :
    invoicesMono l l' := by
  intro i a b ha hb
  obtain ⟨b', hb', hr⟩ := h i a ha
  rw [hb] at hb'
  cases hb'
  exact hr

theorem presMono_refl (l : List Invoice) : presMono l l :=
  fun _ a ha => ⟨a, ha, le_refl _⟩

theorem presMono_trans {l₁ l₂ l₃ : List Invoice}
    (h12 : presMono l₁ l₂) (h23 : presMono l₂ l₃) : presMono l₁ l₃ := by
  intro i a ha
  obtain ⟨b, hb, hab⟩ := h12 i a ha
  obtain ⟨c, hc, hbc⟩ := h23 i b hb
  exact ⟨c, hc, le_trans hab hbc⟩

theorem presMono_map {l : List Invoice} {f : Invoice → Invoice}
    (hid : ∀ v, (f v).id = v.id)
    (hrank : ∀ v ∈ l, statusRank v.status ≤ statusRank (f v).status) :
    presMono l (l.map f) := by
  intro i a ha
  refine ⟨f a, ?_, hrank a (findInvAny_mem ha).1⟩
  rw [findInvAny_map hid l i, ha]
  rfl

theorem presMono_append (l l₂ : List Invoice) : presMono l (l ++ l₂) :=
  fun _ a ha => ⟨a, findInvAny_append_some ha l₂, le_refl _⟩

theorem presMono_of_eq {l l' : List Invoice} (h : l = l') : presMono l l' :=
  h ▸ presMono_refl l

theorem resolveInvoiceSequence_invoices (s : Store) (c : Nat) (ym : Ym) :
    ((resolveInvoiceSequence s c ym).2).invoices = s.invoices := by
  unfold resolveInvoiceSequence
  split <;> rfl

theorem generateFresh_presMono (s : Store) (args : GenArgs) :
    presMono s.invoices ((generateFresh s args).2).invoices := by
  unfold generateFresh
  split
  · exact presMono_refl _
  · next fxRow _ =>
    dsimp only
    split
    · exact presMono_refl _
    · dsimp only
      rw [resolveInvoiceSequence_invoices]
      refine presMono_trans (presMono_append s.invoices _) (presMono_map ?_ ?_)
      · intro v
        by_cases hv : v.id = (resolveInvoiceSequence (lockRate s fxRow.id) args.client_id
            args.invoice_month).2.nextInvoiceId <;> simp [hv]
      · intro v _
        by_cases hv : v.id = (resolveInvoiceSequence (lockRate s fxRow.id) args.client_id
            args.invoice_month).2.nextInvoiceId <;> simp [hv]

theorem regeneratePhase_presMono (s : Store) (eid : Nat) :
    presMono s.invoices ((regeneratePhase s eid).invoices) := by
  unfold regeneratePhase
  refine presMono_map ?_ ?_
  · intro v
    by_cases hv : v.id = eid <;> simp [hv]
  · intro v _
    by_cases hv : v.id = eid <;> simp [hv]

theorem generateBody_presMono (s : Store) (args : GenArgs) :
    presMono s.invoices (((generateBody args s).2).invoices) := by
  unfold generateBody
  split
  · next existing _ =>
    split
    · exact presMono_refl _
    · split
      · exact presMono_refl _
      · exact presMono_trans (regeneratePhase_presMono s existing.id)
          (generateFresh_presMono (regeneratePhase s existing.id) args)
  · exact generateFresh_presMono s args

theorem runTx_store_cases {α : Type} (body : Store → Except BillingError α × Store)
    (s : Store) : (runTx body s).2 = s ∨ (runTx body s).2 = (body s).2 := by
  unfold runTx
  rcases hb : body s with ⟨r, s1⟩
  cases r <;> simp [hb]

theorem lookup_filter_map {f : Invoice → Invoice}
    (hid : ∀ v, (f v).id = v.id) (hdel : ∀ v, (f v).deleted = v.deleted) :
    ∀ (l : List Invoice) (i : Nat),
      ((l.map f).filter fun v => decide (v.id = i ∧ v.deleted = false)).head? =
      ((l.filter fun v => decide (v.id = i ∧ v.deleted = false)).head?).map f := by
  intro l i
  induction l with
  | nil => rfl
  | cons x xs ih =>
    rw [List.map_cons, List.filter_cons, List.filter_cons]
    by_cases hx : x.id = i ∧ x.deleted = false
    · have hfx : (f x).id = i ∧ (f x).deleted = false := by
        rw [hid x, hdel x]; exact hx
      rw [if_pos (decide_eq_true hx), if_pos (decide_eq_true hfx)]
      rfl
    · have hfx : ¬((f x).id = i ∧ (f x).deleted = false) := by
        rw [hid x, hdel x]; exact hx
      rw [if_neg (by rw [decide_eq_true_eq]; exact hfx),
        if_neg (by rw [decide_eq_true_eq]; exact hx)]
      exact ih

theorem lookupInvoice_mem {s : Store} {i : Nat} {inv : Invoice}
    (h : lookupInvoice s i = some inv) :
    inv ∈ s.invoices ∧ inv.id = i ∧ inv.deleted = false := by
  unfold lookupInvoice at h
  rcases s with ⟨rs, evs, invoices, its, sq, a, b, c⟩
  simp only at h ⊢
  induction invoices with
  | nil => simp at h
  | cons x xs ih =>
    rw [List.filter_cons] at h
    by_cases hx : x.id = i ∧ x.deleted = false
    · rw [if_pos (decide_eq_true hx), List.head?_cons] at h
      cases h
      exact ⟨List.mem_cons_self _ _, hx⟩
    · rw [if_neg (by rw [decide_eq_true_eq]; exact hx)] at h
      have := ih h
      exact ⟨List.mem_cons_of_mem _ this.1, this.2⟩

theorem issueBody_presMono (s : Store) (i : Nat)
    (hnd : (s.invoices.map (·.id)).Nodup) :
    presMono s.invoices (((issueBody i s).2).invoices) := by
  unfold issueBody
  split
  · exact presMono_refl _
  · next inv hlook =>
    split
    · exact presMono_refl _
    · next hst =>
      have hdraft : inv.status = InvStatus.draft := by
        by_contra hc
        exact hst hc
      obtain ⟨hmem, hii, _⟩ := lookupInvoice_mem hlook
      refine presMono_map (fun v => ?_) (fun v hv => ?_)
      · by_cases hx : v.id = i <;> simp [hx]
      · by_cases hx : v.id = i
        · have hveq : v = inv :=
            List.inj_on_of_nodup_map hnd hv hmem (by rw [hx, hii])
          rw [if_pos hx, hveq, hdraft]
          simp [statusRank]
        · rw [if_neg hx]

theorem markPaidBody_presMono (s : Store) (i : Nat)
    (hnd : (s.invoices.map (·.id)).Nodup) :
    presMono s.invoices (((markPaidBody i s).2).invoices) := by
  unfold markPaidBody
  split
  · exact presMono_refl _
  · next inv hlook =>
    split
    · exact presMono_refl _
    · next hst =>
      have hiss : inv.status = InvStatus.issued := by
        by_contra hc
        exact hst hc
      obtain ⟨hmem, hii, _⟩ := lookupInvoice_mem hlook
      refine presMono_map (fun v => ?_) (fun v hv => ?_)
      · by_cases hx : v.id = i <;> simp [hx]
      · by_cases hx : v.id = i
        · have hveq : v = inv :=
            List.inj_on_of_nodup_map hnd hv hmem (by rw [hx, hii])
          rw [if_pos hx, hveq, hiss]
          simp [statusRank]
        · rw [if_neg hx]

theorem duplicateBody_presMono (s : Store) (i : Nat) :
    presMono s.invoices (((duplicateBody i s).2).invoices) := by
  unfold duplicateBody
  split
  · exact presMono_refl _
  · next src _ =>
    split
    · exact presMono_refl _
    · dsimp only
      rw [resolveInvoiceSequence_invoices]
      exact presMono_append s.invoices _

theorem markPendingBody_presMono (s : Store) (ids : List Nat) :
    presMono s.invoices (((markPendingBody ids s).2).invoices) := by
  unfold markPendingBody
  dsimp only
  split
  · exact presMono_refl _
  · split
    · exact presMono_refl _
    · exact presMono_refl _

theorem op_mono_of_body {α : Type} (body : Store → Except BillingError α × Store)
    (s : Store) (h : presMono s.invoices ((body s).2).invoices) :
    invoicesMono s.invoices ((runTx body s).2).invoices := by
  rcases runTx_store_cases body s with hc | hc <;> rw [hc]
  · exact invoicesMono_of_presMono (presMono_refl _)
  · exact invoicesMono_of_presMono h

/-- C7: `issue` fails `notFound` on a missing invoice and
`invalidStatus` unless the invoice is exactly a draft (making it
issued on success); `markPaid` fails `notFound` / `invalidStatus`
unless exactly issued (making it paid); and no operation ever decreases
any invoice's status rank (draft = 0 < issued = 1 < paid = 2). -/
theorem invoice_state_machine :
    (∀ (s : Store) (i : Nat), lookupInvoice s i = none →
      issueInvoice s i = (.error .notFound, s)) ∧
    (∀ (s : Store) (i : Nat) (inv : Invoice), lookupInvoice s i = some inv →
      inv.status ≠ InvStatus.draft → issueInvoice s i = (.error .invalidStatus, s)) ∧
    (∀ (s : Store) (i : Nat) (inv : Invoice), lookupInvoice s i = some inv →
      inv.status = InvStatus.draft →
      (issueInvoice s i).1 = .ok (i, .issued) ∧
      lookupInvoice (issueInvoice s i).2 i = some { inv with status := InvStatus.issued }) ∧
    (∀ (s : Store) (i : Nat), lookupInvoice s i = none →
      markInvoicePaid s i = (.error .notFound, s)) ∧
    (∀ (s : Store) (i : Nat) (inv : Invoice), lookupInvoice s i = some inv →
      inv.status ≠ InvStatus.issued → markInvoicePaid s i = (.error .invalidStatus, s)) ∧
    (∀ (s : Store) (i : Nat) (inv : Invoice), lookupInvoice s i = some inv →
      inv.status = InvStatus.issued →
      (markInvoicePaid s i).1 = .ok (i, .paid) ∧
      lookupInvoice (markInvoicePaid s i).2 i = some { inv with status := InvStatus.paid }) ∧
    (∀ (s : Store) (args : GenArgs),
      invoicesMono s.invoices ((generateInvoice s args).2).invoices) ∧
    (∀ (s : Store) (i : Nat), (s.invoices.map (·.id)).Nodup →
      invoicesMono s.invoices ((issueInvoice s i).2).invoices) ∧
    (∀ (s : Store) (i : Nat), (s.invoices.map (·.id)).Nodup →
      invoicesMono s.invoices ((markInvoicePaid s i).2).invoices) ∧
    (∀ (s : Store) (i : Nat),
      invoicesMono s.invoices ((duplicateInvoiceForAdmin s i).2).invoices) ∧
    (∀ (s : Store) (ids : List Nat),
      invoicesMono s.invoices ((markEventsPending s ids).2).invoices) := by
  refine ⟨?_, ?_, ?_, ?_, ?_, ?_, ?_, ?_, ?_, ?_, ?_⟩
  · intro s i h
    unfold issueInvoice runTx issueBody
    rw [h]
  · intro s i inv h hst
    unfold issueInvoice runTx issueBody
    rw [h]
    simp [hst]
  · intro s i inv h hdraft
    have hii := (lookupInvoice_mem h).2.1
    unfold issueInvoice runTx issueBody
    rw [h]
    simp only [hdraft, ne_eq, not_true_eq_false, if_false]
    refine ⟨by trivial, ?_⟩
    show lookupInvoice _ i = _
    unfold lookupInvoice
    rw [show ({ s with invoices := s.invoices.map fun v =>
        if v.id = i then { v with status := InvStatus.issued } else v } : Store).invoices =
      s.invoices.map fun v => if v.id = i then { v with status := InvStatus.issued } else v
      from rfl]
    rw [lookup_filter_map (f := fun v => if v.id = i then { v with status := InvStatus.issued } else v)
      (fun v => by by_cases hx : v.id = i <;> simp [hx])
      (fun v => by by_cases hx : v.id = i <;> simp [hx])]
    have : lookupInvoice s i = some inv := h
    unfold lookupInvoice at this
    rw [this]
    simp [hii]
  · intro s i h
    unfold markInvoicePaid runTx markPaidBody
    rw [h]
  · intro s i inv h hst
    unfold markInvoicePaid runTx markPaidBody
    rw [h]
    simp [hst]
  · intro s i inv h hiss
    have hii := (lookupInvoice_mem h).2.1
    unfold markInvoicePaid runTx markPaidBody
    rw [h]
    simp only [hiss, ne_eq, not_true_eq_false, if_false]
    refine ⟨by trivial, ?_⟩
    show lookupInvoice _ i = _
    unfold lookupInvoice
    rw [show ({ s with invoices := s.invoices.map fun v =>
        if v.id = i then { v with status := InvStatus.paid } else v } : Store).invoices =
      s.invoices.map fun v => if v.id = i then { v with status := InvStatus.paid } else v
      from rfl]
    rw [lookup_filter_map (f := fun v => if v.id = i then { v with status := InvStatus.paid } else v)
      (fun v => by by_cases hx : v.id = i <;> simp [hx])
      (fun v => by by_cases hx : v.id = i <;> simp [hx])]
    have : lookupInvoice s i = some inv := h
    unfold lookupInvoice at this
    rw [this]
    simp [hii]
  · intro s args
    exact op_mono_of_body _ s (generateBody_presMono s args)
  · intro s i hnd
    exact op_mono_of_body _ s (issueBody_presMono s i hnd)
  · intro s i hnd
    exact op_mono_of_body _ s (markPaidBody_presMono s i hnd)
  · intro s i
    exact op_mono_of_body _ s (duplicateBody_presMono s i)
  · intro s ids
    exact op_mono_of_body _ s (markPendingBody_presMono s ids)

/-! ### Reverting events to PENDING (claim C9) -/

/-- First billing-event row carrying a given id. -/
def findEventAny (l : List BillingEvent) (i : Nat) : Option BillingEvent :=
  (l.filter fun e => decide (e.id = i)).head?

theorem findEventAny_cons (x : BillingEvent) (xs : List BillingEvent) (i : Nat) :
    findEventAny (x :: xs) i = if x.id = i then some x else findEventAny xs i := by
  unfold findEventAny
  by_cases h : x.id = i <;> simp [List.filter_cons, h]

theorem findEventAny_id {l : List BillingEvent} {i : Nat} {a : BillingEvent}
    (h : findEventAny l i = some a) : a ∈ l ∧ a.id = i := by
  induction l with
  | nil => simp [findEventAny] at h
  | cons x xs ih =>
    rw [findEventAny_cons] at h
    by_cases hx : x.id = i
    · rw [if_pos hx] at h
      cases h
      exact ⟨List.mem_cons_self _ _, hx⟩
    · rw [if_neg hx] at h
      have := ih h
      exact ⟨List.mem_cons_of_mem _ this.1, this.2⟩

theorem findEventAny_map {f : BillingEvent → BillingEvent}
    (hid : ∀ v, (f v).id = v.id) :
    ∀ (l : List BillingEvent) (i : Nat),
      findEventAny (l.map f) i = (findEventAny l i).map f := by
  intro l i
  induction l with
  | nil => rfl
  | cons x xs ih =>
    rw [List.map_cons, findEventAny_cons, findEventAny_cons, hid x]
    by_cases hx : x.id = i
    · rw [if_pos hx, if_pos hx]; rfl
    · rw [if_neg hx, if_neg hx, ih]

theorem findEventAny_nodup {l : List BillingEvent} {e : BillingEvent}
    (hnd : (l.map (·.id)).Nodup) (he : e ∈ l) : findEventAny l e.id = some e := by
  induction l with
  | nil => cases he
  | cons x xs ih =>
    rw [List.map_cons, List.nodup_cons] at hnd
    rw [findEventAny_cons]
    by_cases hx : x.id = e.id
    · rw [if_pos hx]
      rcases List.mem_cons.mp he with he1 | he1
      · rw [he1]
      · exact absurd (hx ▸ List.mem_map_of_mem (·.id) he1) hnd.1
    · rcases List.mem_cons.mp he with he1 | he1
      · exact absurd (he1 ▸ rfl) hx
      · rw [if_neg hx]
        exact ih hnd.2 he1

theorem targetedEvents_mem {s : Store} {ids : List Nat} {e : BillingEvent}
    (h : e ∈ targetedEvents s ids) :
    e ∈ s.events ∧ e.id ∈ ids ∧ e.deleted = false := by
  have := List.mem_filter.mp h
  exact ⟨this.1, by simpa using this.2⟩

/-- C9: `markEventsPending` fails `eventsNotFound` when none of the
targeted events exist, fails `eventsLocked` — changing nothing — when
any targeted event's joined (non-deleted) invoice is issued or paid, and
otherwise reverts every targeted existing event to PENDING, clearing its
invoice link and frozen rate, leaving untargeted events untouched and
returning the count of targeted existing events. -/
theorem mark_events_pending_spec :
    (∀ (s : Store) (ids : List Nat), targetedEvents s ids = [] →
      markEventsPending s ids = (.error .eventsNotFound, s)) ∧
    (∀ (s : Store) (ids : List Nat) (e : BillingEvent),
      e ∈ targetedEvents s ids → eventLocked s e = true →
      markEventsPending s ids = (.error .eventsLocked, s)) ∧
    (∀ (s : Store) (ids : List Nat), targetedEvents s ids ≠ [] →
      (∀ e ∈ targetedEvents s ids, eventLocked s e = false) →
      (s.events.map (·.id)).Nodup →
      (markEventsPending s ids).1 = .ok (targetedEvents s ids).length ∧
      (∀ e ∈ targetedEvents s ids,
        findEventAny ((markEventsPending s ids).2).events e.id =
          some { e with
            status := EvStatus.pending, invoice_id := none,
            fx_rate_thbkrw := none }) ∧
      (∀ e ∈ s.events, e.id ∉ ids → e ∈ ((markEventsPending s ids).2).events)) := by
  refine ⟨?_, ?_, ?_⟩
  · intro s ids h
    unfold markEventsPending runTx markPendingBody
    simp [h]
  · intro s ids e he hlock
    unfold markEventsPending runTx markPendingBody
    have hne : targetedEvents s ids ≠ [] := List.ne_nil_of_mem he
    have hbl : (targetedEvents s ids).filter (eventLocked s) ≠ [] :=
      List.ne_nil_of_mem (List.mem_filter.mpr ⟨he, hlock⟩)
    simp only [List.isEmpty_eq_true, hne, if_false]
    simp [List.isEmpty_eq_false.mpr hbl]
  · intro s ids hne hunlocked hnd
    have hbl : (targetedEvents s ids).filter (eventLocked s) = [] := by
      rw [List.filter_eq_nil_iff]
      intro e he
      rw [hunlocked e he]
      simp
    have hrun : markEventsPending s ids =
        (.ok (targetedEvents s ids).length,
          { s with events := s.events.map fun e =>
              if e.id ∈ ids ∧ e.deleted = false then
                { e with
                  status := EvStatus.pending, invoice_id := none,
                  fx_rate_thbkrw := none }
              else e }) := by
      unfold markEventsPending runTx markPendingBody
      simp only [List.isEmpty_eq_true, hne, if_false, hbl]
      rfl
    rw [hrun]
    refine ⟨rfl, ?_, ?_⟩
    · intro e he
      obtain ⟨hmem, hid, hdel⟩ := targetedEvents_mem he
      show findEventAny (s.events.map _) e.id = _
      rw [findEventAny_map (fun v => by
        by_cases hv : v.id ∈ ids ∧ v.deleted = false
        · rw [if_pos hv]
        · rw [if_neg hv])]
      rw [findEventAny_nodup hnd hmem, Option.map_some']
      rw [if_pos ⟨hid, hdel⟩]
    · intro e he hida
      show e ∈ s.events.map _
      have : (if e.id ∈ ids ∧ e.deleted = false then
          { e with
            status := EvStatus.pending, invoice_id := none,
            fx_rate_thbkrw := none } else e) = e := by
        rw [if_neg (fun hc => hida hc.1)]
      exact this ▸ List.mem_map_of_mem _ he

/-! ### Anatomy of a successful generation (claims C1, C2, C5) -/

theorem resolveInvoiceSequence_events (s : Store) (c : Nat) (ym : Ym) :
    ((resolveInvoiceSequence s c ym).2).events = s.events := by
  unfold resolveInvoiceSequence
  split <;> rfl

theorem resolveInvoiceSequence_nextItemId (s : Store) (c : Nat) (ym : Ym) :
    ((resolveInvoiceSequence s c ym).2).nextItemId = s.nextItemId := by
  unfold resolveInvoiceSequence
  split <;> rfl

/-- The pending events a `generateInvoice` call consumes: the PENDING
events of the client in the invoice month's half-open range, read from
the store generation actually runs against. -/
def genSelectedEvents (s : Store) (args : GenArgs) : List BillingEvent :=
  listPendingEvents (genBaseStore s args).events args.client_id
    (monthRange args.invoice_month).1 (monthRange args.invoice_month).2

theorem generateFresh_success_shape {b : Store} {args : GenArgs} {inv : Invoice}
    {items : List InvoiceItem} {cnt fxid : Nat} {s' : Store}
    (h : generateFresh b args = (.ok (.generated inv items cnt fxid), s')) :
    ∃ r : ExchangeRate,
      findApplicableRate b.rates args.invoice_date = some r ∧
      (listPendingEvents b.events args.client_id (monthRange args.invoice_month).1
          (monthRange args.invoice_month).2 ≠ [] ∧
        fxid = r.id ∧
        cnt = (listPendingEvents b.events args.client_id (monthRange args.invoice_month).1
          (monthRange args.invoice_month).2).length ∧
        inv.fx_rate_thbkrw = r.rate ∧ inv.status = InvStatus.draft ∧
        inv.subtotal_krw = trunc100 (groupsSubtotal (groupEvents
          (listPendingEvents b.events args.client_id (monthRange args.invoice_month).1
            (monthRange args.invoice_month).2) r.rate)) ∧
        inv.vat_krw = trunc100 (inv.subtotal_krw * (7 / 100)) ∧
        inv.total_krw = trunc100 (inv.subtotal_krw + inv.vat_krw) ∧
        items = buildGroupItems inv.id b.nextItemId (groupEvents
            (listPendingEvents b.events args.client_id (monthRange args.invoice_month).1
              (monthRange args.invoice_month).2) r.rate) ++
          [{ id := b.nextItemId + (groupEvents
                (listPendingEvents b.events args.client_id (monthRange args.invoice_month).1
                  (monthRange args.invoice_month).2) r.rate).length
             invoice_id := inv.id
             service_code := "VAT_7"
             qty := 1
             unit_price_krw := inv.vat_krw
             amount_krw := inv.vat_krw
             deleted := false }] ∧
        s'.events = stampEvents b.events
          (listPendingEvents b.events args.client_id (monthRange args.invoice_month).1
            (monthRange args.invoice_month).2) r.rate inv.id) := by
  unfold generateFresh at h
  rcases hfx : findApplicableRate b.rates args.invoice_date with _ | fxRow
  · rw [hfx] at h
    simp at h
  · rw [hfx] at h
    dsimp only at h
    rw [show (lockRate b fxRow.id).events = b.events from rfl] at h
    by_cases hev : (listPendingEvents b.events args.client_id
        (monthRange args.invoice_month).1 (monthRange args.invoice_month).2).isEmpty = true
    · rw [if_pos hev] at h
      simp at h
    · rw [if_neg hev] at h
      simp only [Prod.mk.injEq, Except.ok.injEq, GenOutcome.generated.injEq] at h
      obtain ⟨⟨hinv, hitems, hcnt, hfxid⟩, hs⟩ := h
      refine ⟨fxRow, rfl, ?_⟩
      rw [List.isEmpty_eq_true] at hev
      subst hinv hitems hcnt hfxid
      refine ⟨hev, rfl, rfl, rfl, rfl, rfl, rfl, rfl, ?_, ?_⟩
      · rw [resolveInvoiceSequence_nextItemId]
        rfl
      · rw [← hs]
        show stampEvents _ _ _ _ = _
        rw [resolveInvoiceSequence_events]
        rfl

theorem runTx_ok {α : Type} {body : Store → Except BillingError α × Store}
    {s : Store} {a : α} {s' : Store}
    (h : runTx body s = (.ok a, s')) : body s = (.ok a, s') := by
  unfold runTx at h
  rcases hb : body s with ⟨r, s1⟩
  rw [hb] at h
  cases r with
  | error e => simp at h
  | ok a' =>
    simp only [Prod.mk.injEq, Except.ok.injEq] at h
    rw [h.1, h.2]

theorem generate_success_shape {s : Store} {args : GenArgs} {inv : Invoice}
    {items : List InvoiceItem} {cnt fxid : Nat} {s' : Store}
    (h : generateInvoice s args = (.ok (.generated inv items cnt fxid), s')) :
    ∃ r : ExchangeRate,
      findApplicableRate (genBaseStore s args).rates args.invoice_date = some r ∧
      genSelectedEvents s args ≠ [] ∧
      fxid = r.id ∧
      cnt = (genSelectedEvents s args).length ∧
      inv.fx_rate_thbkrw = r.rate ∧ inv.status = InvStatus.draft ∧
      inv.subtotal_krw = trunc100 (groupsSubtotal (groupEvents (genSelectedEvents s args) r.rate)) ∧
      inv.vat_krw = trunc100 (inv.subtotal_krw * (7 / 100)) ∧
      inv.total_krw = trunc100 (inv.subtotal_krw + inv.vat_krw) ∧
      items = buildGroupItems inv.id (genBaseStore s args).nextItemId
          (groupEvents (genSelectedEvents s args) r.rate) ++
        [{ id := (genBaseStore s args).nextItemId +
              (groupEvents (genSelectedEvents s args) r.rate).length
           invoice_id := inv.id
           service_code := "VAT_7"
           qty := 1
           unit_price_krw := inv.vat_krw
           amount_krw := inv.vat_krw
           deleted := false }] ∧
      s'.events = stampEvents (genBaseStore s args).events (genSelectedEvents s args)
        r.rate inv.id := by
  have hbody := runTx_ok h
  unfold generateBody at hbody
  rcases hex : findExistingInvoice s.invoices args.client_id args.invoice_month with _ | ex
  · rw [hex] at hbody
    have hbase : genBaseStore s args = s := by
      unfold genBaseStore
      rw [hex]
    unfold genSelectedEvents
    rw [hbase]
    exact generateFresh_success_shape hbody
  · rw [hex] at hbody
    dsimp only at hbody
    by_cases hst : ex.status = InvStatus.draft
    · rw [if_neg (by simp [hst])] at hbody
      by_cases hre : args.regenerate_draft = false
      · rw [if_pos hre] at hbody
        simp only [Prod.mk.injEq, Except.ok.injEq] at hbody
        exact absurd hbody.1 (by intro hc; cases hc)
      · rw [if_neg hre] at hbody
        have hretrue : args.regenerate_draft = true := by
          cases hrd : args.regenerate_draft
          · exact absurd hrd hre
          · rfl
        have hbase : genBaseStore s args = regeneratePhase s ex.id := by
          unfold genBaseStore
          rw [hex]
          dsimp only
          rw [if_pos ⟨hst, hretrue⟩]
        unfold genSelectedEvents
        rw [hbase]
        exact generateFresh_success_shape hbody
    · rw [if_pos hst] at hbody
      simp at hbody

/-- C5: every generated invoice has `vat_krw = trunc100(subtotal_krw * 0.07)`
and `total_krw = trunc100(subtotal_krw + vat_krw)`, and its created item
list ends with exactly one appended synthetic `VAT_7` row whose amount
(and unit price) is `vat_krw`; in particular subtotal 15100 gives
vat 1000 and total 16100. -/
theorem vat_computation :
    (∀ (s : Store) (args : GenArgs) (inv : Invoice) (items : List InvoiceItem)
        (cnt fxid : Nat) (s' : Store),
      generateInvoice s args = (.ok (.generated inv items cnt fxid), s') →
      inv.vat_krw = trunc100 (inv.subtotal_krw * (7 / 100)) ∧
      inv.total_krw = trunc100 (inv.subtotal_krw + inv.vat_krw) ∧
      ∃ (rest : List InvoiceItem) (vatId : Nat),
        items = rest ++
          [⟨vatId, inv.id, "VAT_7", 1, inv.vat_krw, inv.vat_krw, false⟩]) ∧
    trunc100 ((15100 : ℚ) * (7 / 100)) = 1000 ∧
    trunc100 ((15100 : ℚ) + 1000) = 16100 := by
  refine ⟨?_, ?_, ?_⟩
  · intro s args inv items cnt fxid s' h
    obtain ⟨r, _, _, _, _, _, _, _, hvat, htot, hitems, _⟩ := generate_success_shape h
    exact ⟨hvat, htot,
      buildGroupItems inv.id (genBaseStore s args).nextItemId
        (groupEvents (genSelectedEvents s args) r.rate),
      (genBaseStore s args).nextItemId + (groupEvents (genSelectedEvents s args) r.rate).length,
      hitems⟩
  · have h10 := trunc100_eval 10 ((15100 : ℚ) * (7 / 100)) (by norm_num) (by norm_num)
    rw [h10]
    norm_num
  · have h161 := trunc100_eval 161 ((15100 : ℚ) + 1000) (by norm_num) (by norm_num)
    rw [h161]
    norm_num

/-! ### Conservation of amounts (claim C2) -/

theorem foldl_add_trunc (gs : List SvcGroup) : ∀ c : ℚ,
    gs.foldl (fun acc g => acc + trunc100 g.amount_krw) c =
      c + (gs.map fun g => trunc100 g.amount_krw).sum := by
  induction gs with
  | nil => intro c; simp
  | cons g rest ih =>
    intro c
    rw [List.foldl_cons, ih, List.map_cons, List.sum_cons]
    ring

theorem groupsSubtotal_eq_sum (gs : List SvcGroup) :
    groupsSubtotal gs = (gs.map fun g => trunc100 g.amount_krw).sum := by
  unfold groupsSubtotal
  rw [foldl_add_trunc]
  ring

theorem mult100_sum_trunc (gs : List SvcGroup) :
    Mult100 ((gs.map fun g => trunc100 g.amount_krw).sum) := by
  induction gs with
  | nil => exact mult100_zero
  | cons g rest ih =>
    rw [List.map_cons, List.sum_cons]
    exact mult100_add (mult100_trunc100 _) ih

theorem buildGroupItems_amounts (invId : Nat) : ∀ (itemId : Nat) (gs : List SvcGroup),
    (buildGroupItems invId itemId gs).map (·.amount_krw) =
      gs.map fun g => trunc100 g.amount_krw := by
  intro itemId gs
  induction gs generalizing itemId with
  | nil => rfl
  | cons g rest ih =>
    show InvoiceItem.amount_krw (mkGroupItem invId itemId g) :: _ = _
    rw [ih (itemId + 1)]
    rfl

theorem buildGroupItems_mem {invId : Nat} : ∀ {itemId : Nat} {gs : List SvcGroup}
    {it : InvoiceItem}, it ∈ buildGroupItems invId itemId gs →
    ∃ g ∈ gs, it.service_code = g.service_code := by
  intro itemId gs
  induction gs generalizing itemId with
  | nil => intro it hit; cases hit
  | cons g rest ih =>
    intro it hit
    rcases List.mem_cons.mp hit with h1 | h1
    · exact ⟨g, List.mem_cons_self _ _, by rw [h1]; rfl⟩
    · obtain ⟨g0, hg0, hcode⟩ := ih h1
      exact ⟨g0, List.mem_cons_of_mem _ hg0, hcode⟩

theorem addToGroups_code {gs : List SvcGroup} {code : String} {q a : ℚ} {g : SvcGroup}
    (hg : g ∈ addToGroups gs code q a) :
    (∃ g0 ∈ gs, g.service_code = g0.service_code) ∨ g.service_code = code := by
  unfold addToGroups at hg
  split at hg
  · obtain ⟨g0, hg0, heq⟩ := List.mem_map.mp hg
    left
    refine ⟨g0, hg0, ?_⟩
    by_cases hc : g0.service_code == code
    · rw [← heq, if_pos hc]
    · rw [← heq, if_neg hc]
  · rcases List.mem_append.mp hg with h1 | h1
    · exact Or.inl ⟨g, h1, rfl⟩
    · right
      rw [List.mem_singleton.mp h1]

theorem groupEvents_fold_code {fx : ℚ} : ∀ (evs : List BillingEvent)
    (gs0 : List SvcGroup) (g : SvcGroup),
    g ∈ evs.foldl (fun gs e => addToGroups gs e.service_code e.qty (normalizedAmount e fx)) gs0 →
    (∃ g0 ∈ gs0, g.service_code = g0.service_code) ∨
      ∃ e ∈ evs, g.service_code = e.service_code := by
  intro evs
  induction evs with
  | nil =>
    intro gs0 g hg
    exact Or.inl ⟨g, hg, rfl⟩
  | cons e rest ih =>
    intro gs0 g hg
    rw [List.foldl_cons] at hg
    rcases ih _ g hg with ⟨g0, hg0, hcode⟩ | ⟨e', he', hcode⟩
    · rcases addToGroups_code hg0 with ⟨g1, hg1, hcode1⟩ | hcode1
      · exact Or.inl ⟨g1, hg1, hcode.trans hcode1⟩
      · exact Or.inr ⟨e, List.mem_cons_self _ _, hcode.trans hcode1⟩
    · exact Or.inr ⟨e', List.mem_cons_of_mem _ he', hcode⟩

theorem groupEvents_code {evs : List BillingEvent} {fx : ℚ} {g : SvcGroup}
    (hg : g ∈ groupEvents evs fx) : ∃ e ∈ evs, g.service_code = e.service_code := by
  rcases groupEvents_fold_code evs [] g hg with ⟨g0, hg0, _⟩ | h
  · cases hg0
  · exact h

/-- The conservation sum named by the spec: total of `amount_krw` over
the invoice's items whose `service_code` is not `"VAT_7"`. -/
def sumNonVat (items : List InvoiceItem) : ℚ :=
  ((items.filter fun it => decide (it.service_code ≠ "VAT_7")).map (·.amount_krw)).sum

/-- C2 (amended): for every invoice produced by a successful
`generateInvoice` call *whose consumed events none carry service code
`"VAT_7"`*, `subtotal_krw` equals the exact sum of `amount_krw` over the
invoice's non-`VAT_7` items, and `total_krw = subtotal_krw + vat_krw`
exactly (the latter unconditionally). -/
theorem invoice_conservation (s : Store) (args : GenArgs) (inv : Invoice)
    (items : List InvoiceItem) (cnt fxid : Nat) (s' : Store)
    (h : generateInvoice s args = (.ok (.generated inv items cnt fxid), s'))
    (hnv : ∀ e ∈ genSelectedEvents s args, e.service_code ≠ "VAT_7") :
    inv.subtotal_krw = sumNonVat items ∧
    inv.total_krw = inv.subtotal_krw + inv.vat_krw := by
  obtain ⟨r, _, _, _, _, _, _, hsub, hvat, htot, hitems, _⟩ := generate_success_shape h
  constructor
  · rw [hitems]
    unfold sumNonVat
    rw [List.filter_append]
    have hvatfil : (List.filter (fun (it : InvoiceItem) => decide (it.service_code ≠ "VAT_7"))
        [(⟨(genBaseStore s args).nextItemId +
            (groupEvents (genSelectedEvents s args) r.rate).length,
          inv.id, "VAT_7", 1, inv.vat_krw, inv.vat_krw, false⟩ : InvoiceItem)]) = [] := by
      simp
    rw [hvatfil, List.append_nil]
    have hgcodes : ∀ g ∈ groupEvents (genSelectedEvents s args) r.rate,
        g.service_code ≠ "VAT_7" := by
      intro g hg
      obtain ⟨e, he, heq⟩ := groupEvents_code hg
      rw [heq]
      exact hnv e he
    have hkeep : List.filter (fun it => decide (it.service_code ≠ "VAT_7"))
        (buildGroupItems inv.id (genBaseStore s args).nextItemId
          (groupEvents (genSelectedEvents s args) r.rate)) =
        buildGroupItems inv.id (genBaseStore s args).nextItemId
          (groupEvents (genSelectedEvents s args) r.rate) := by
      rw [List.filter_eq_self]
      intro it hit
      obtain ⟨g, hgmem, hcode⟩ := buildGroupItems_mem hit
      rw [decide_eq_true_eq, hcode]
      exact hgcodes g hgmem
    rw [hkeep, buildGroupItems_amounts, hsub, ← groupsSubtotal_eq_sum]
    exact trunc100_fix (by
      rw [groupsSubtotal_eq_sum]
      exact mult100_sum_trunc _)
  · rw [htot]
    exact trunc100_fix (mult100_add (hsub ▸ mult100_trunc100 _) (hvat ▸ mult100_trunc100 _))

/-! ### Normalization stamped onto consumed events (claim C1) -/

/-- The fields `markInvoiced` writes onto a stored row for selected
event `e`. -/
def stampWith (e : BillingEvent) (fx : ℚ) (invId : Nat) (ev : BillingEvent) : BillingEvent :=
  { ev with
    amount_krw := some (normalizedAmount e fx), fx_rate_thbkrw := some fx,
    status := EvStatus.invoiced, invoice_id := some invId }

theorem stampEvent_fn_id (eid : Nat) (a fx : ℚ) (invId : Nat) (v : BillingEvent) :
    (if v.id = eid then ({ v with
      amount_krw := some a, fx_rate_thbkrw := some fx,
      status := EvStatus.invoiced, invoice_id := some invId }) else v).id = v.id := by
  by_cases hv : v.id = eid
  · rw [if_pos hv]
  · rw [if_neg hv]

theorem stampEvent_find (l : List BillingEvent) (e : BillingEvent) (fx : ℚ) (invId : Nat)
    (i : Nat) :
    findEventAny (stampEvent l e.id (normalizedAmount e fx) fx invId) i =
      (findEventAny l i).map fun ev => if ev.id = e.id then stampWith e fx invId ev else ev := by
  unfold stampEvent
  rw [findEventAny_map (stampEvent_fn_id e.id (normalizedAmount e fx) fx invId)]
  rcases findEventAny l i with _ | v
  · rfl
  · rw [Option.map_some', Option.map_some']
    by_cases hv : v.id = e.id
    · rw [if_pos hv, if_pos hv]
      rfl
    · rw [if_neg hv, if_neg hv]

theorem stampEvents_not_mem : ∀ (sel : List BillingEvent) (l : List BillingEvent)
    (fx : ℚ) (invId : Nat) (i : Nat), (∀ e ∈ sel, e.id ≠ i) →
    findEventAny (stampEvents l sel fx invId) i = findEventAny l i := by
  intro sel
  induction sel with
  | nil => intro l fx invId i _; rfl
  | cons x rest ih =>
    intro l fx invId i hni
    show findEventAny (stampEvents (stampEvent l x.id (normalizedAmount x fx) fx invId)
      rest fx invId) i = _
    rw [ih _ fx invId i (fun e he => hni e (List.mem_cons_of_mem _ he))]
    rw [stampEvent_find]
    rcases hf : findEventAny l i with _ | v
    · rfl
    · rw [Option.map_some']
      have hvx : v.id ≠ x.id := by
        rw [(findEventAny_id hf).2]
        exact fun hc => hni x (List.mem_cons_self _ _) hc.symm
      rw [if_neg hvx]

theorem stampEvents_found : ∀ (sel : List BillingEvent) (l : List BillingEvent)
    (fx : ℚ) (invId : Nat) (e : BillingEvent),
    (sel.map (·.id)).Nodup → e ∈ sel →
    findEventAny (stampEvents l sel fx invId) e.id =
      (findEventAny l e.id).map (stampWith e fx invId) := by
  intro sel
  induction sel with
  | nil => intro l fx invId e _ he; cases he
  | cons x rest ih =>
    intro l fx invId e hnd he
    rw [List.map_cons, List.nodup_cons] at hnd
    show findEventAny (stampEvents (stampEvent l x.id (normalizedAmount x fx) fx invId)
      rest fx invId) e.id = _
    rcases List.mem_cons.mp he with he1 | he1
    · subst he1
      rw [stampEvents_not_mem rest _ fx invId e.id
        (fun e' he' hc => hnd.1 (hc ▸ List.mem_map_of_mem (·.id) he'))]
      rw [stampEvent_find]
      rcases hf : findEventAny l e.id with _ | v
      · rfl
      · rw [Option.map_some', Option.map_some', if_pos (findEventAny_id hf).2]
    · rw [ih _ fx invId e hnd.2 he1, stampEvent_find]
      rcases hf : findEventAny l e.id with _ | v
      · rfl
      · rw [Option.map_some', Option.map_some', Option.map_some']
        have hvx : v.id ≠ x.id := by
          rw [(findEventAny_id hf).2]
          intro hc
          exact hnd.1 (hc ▸ List.mem_map_of_mem (·.id) he1)
        rw [if_neg hvx]

theorem normalizedAmount_getD (e : BillingEvent) (fx : ℚ) :
    normalizedAmount e fx =
      if e.pricing_policy = PricingPolicy.thbBased then
        trunc100 ((e.amount_thb.getD (e.unit_price_thb.getD 0 * e.qty)) * fx)
      else
        trunc100 (e.amount_krw.getD (e.unit_price_krw.getD 0 * e.qty)) := by
  unfold normalizedAmount
  by_cases hp : e.pricing_policy = PricingPolicy.thbBased
  · rw [if_pos hp, if_pos hp]
    cases e.amount_thb <;> rfl
  · rw [if_neg hp, if_neg hp]
    cases e.amount_krw <;> rfl

/-- C1: every billing event consumed by a successful generation is
stamped INVOICED with the frozen rate and a normalized KRW amount equal
to `trunc100(amount_thb * fx)` for THB_BASED events and
`trunc100(amount_krw)` for KRW_FIXED events, the underlying amount being
the explicit `amount_*` field when present and `unit_price_* * qty`
otherwise; in particular `amount_thb = 120` at rate 39.1234 normalizes
to 4600. -/
theorem events_normalized :
    (∀ (s : Store) (args : GenArgs) (inv : Invoice) (items : List InvoiceItem)
        (cnt fxid : Nat) (s' : Store),
      generateInvoice s args = (.ok (.generated inv items cnt fxid), s') →
      ((genBaseStore s args).events.map (·.id)).Nodup →
      ∀ e ∈ genSelectedEvents s args,
        findEventAny s'.events e.id = some { e with
          amount_krw := some (if e.pricing_policy = PricingPolicy.thbBased
            then trunc100 ((e.amount_thb.getD (e.unit_price_thb.getD 0 * e.qty)) *
              inv.fx_rate_thbkrw)
            else trunc100 (e.amount_krw.getD (e.unit_price_krw.getD 0 * e.qty)))
          fx_rate_thbkrw := some inv.fx_rate_thbkrw
          status := EvStatus.invoiced
          invoice_id := some inv.id }) ∧
    trunc100 (120 * (391234 / 10000 : ℚ)) = 4600 := by
  constructor
  · intro s args inv items cnt fxid s' h hnd e he
    obtain ⟨r, _, _, _, _, hfx, _, _, _, _, _, hevents⟩ := generate_success_shape h
    have hsel : genSelectedEvents s args = listPendingEvents (genBaseStore s args).events
        args.client_id (monthRange args.invoice_month).1 (monthRange args.invoice_month).2 := rfl
    have hsub : List.Sublist (genSelectedEvents s args) (genBaseStore s args).events := by
      rw [hsel]
      exact List.filter_sublist _
    have hselnd : ((genSelectedEvents s args).map (·.id)).Nodup :=
      (hsub.map (·.id)).nodup hnd
    have hemem : e ∈ (genBaseStore s args).events := hsub.mem he
    rw [hevents, stampEvents_found (genSelectedEvents s args) _ r.rate inv.id e hselnd he,
      findEventAny_nodup hnd hemem, Option.map_some']
    unfold stampWith
    rw [normalizedAmount_getD, hfx]
  · have h46 := trunc100_eval 46 (120 * (391234 / 10000 : ℚ)) (by norm_num) (by norm_num)
    rw [h46]
    norm_num

/-! ### Concrete scenarios -/

theorem trunc100_c100 : trunc100 (100 : ℚ) = 100 := by
  have h := trunc100_eval 1 (100 : ℚ) (by norm_num) (by norm_num)
  rw [h]
  norm_num

theorem trunc100_c7 : trunc100 (7 : ℚ) = 0 := by
  have h := trunc100_eval 0 (7 : ℚ) (by norm_num) (by norm_num)
  rw [h]
  norm_num

theorem trunc100_c4694 : trunc100 (120 * (391234 / 10000 : ℚ)) = 4600 := by
  have h := trunc100_eval 46 (120 * (391234 / 10000 : ℚ)) (by norm_num) (by norm_num)
  rw [h]
  norm_num

theorem trunc100_c4600 : trunc100 (4600 : ℚ) = 4600 := by
  have h := trunc100_eval 46 (4600 : ℚ) (by norm_num) (by norm_num)
  rw [h]
  norm_num

theorem trunc100_c322 : trunc100 (322 : ℚ) = 300 := by
  have h := trunc100_eval 3 (322 : ℚ) (by norm_num) (by norm_num)
  rw [h]
  norm_num

theorem trunc100_c4900 : trunc100 (4900 : ℚ) = 4900 := by
  have h := trunc100_eval 49 (4900 : ℚ) (by norm_num) (by norm_num)
  rw [h]
  norm_num

theorem trunc100_c586851d125 : trunc100 ((586851 : ℚ) / 125) = 4600 := by
  have h := trunc100_eval 46 ((586851 : ℚ) / 125) (by norm_num) (by norm_num)
  rw [h]
  norm_num

/-- The spec's sample event: one THB_BASED shipping event of 120 THB. -/
def khEvent : BillingEvent :=
  { id := 1
    client_id := 1
    service_code := "TH_SHIPPING"
    event_date := ⟨2026, 1, 3⟩
    qty := 1
    pricing_policy := PricingPolicy.thbBased
    unit_price_thb := some 120
    amount_thb := some 120
    unit_price_krw := none
    amount_krw := none
    fx_rate_thbkrw := none
    status := EvStatus.pending
    invoice_id := none
    deleted := false }

/-- The spec's sample rate: 39.1234 THB→KRW, active and unlocked. -/
def khRate : ExchangeRate :=
  { id := 1
    rate_date := ⟨2026, 1, 1⟩
    base_currency := "THB"
    quote_currency := "KRW"
    rate := 391234 / 10000
    status := RateStatus.active
    locked := false
    deleted := false }

def khStore : Store :=
  { rates := [khRate]
    events := [khEvent]
    invoices := []
    items := []
    seqs := []
    nextInvoiceId := 1
    nextItemId := 1
    nextSeqId := 1 }

def khArgs : GenArgs :=
  { client_id := 1
    invoice_month := ⟨2026, 1⟩
    invoice_date := ⟨2026, 1, 31⟩
    regenerate_draft := false }

def khInv : Invoice :=
  { id := 1
    client_id := 1
    invoice_month := ⟨2026, 1⟩
    invoice_no := mkInvoiceNo 1 ⟨2026, 1⟩ 1
    status := InvStatus.draft
    fx_rate_thbkrw := 391234 / 10000
    subtotal_krw := 4600
    vat_krw := 300
    total_krw := 4900
    deleted := false }

def khItems : List InvoiceItem :=
  [⟨1, 1, "TH_SHIPPING", 1, 4600, 4600, false⟩, ⟨2, 1, "VAT_7", 1, 300, 300, false⟩]

theorem kh_eval1 : (generateInvoice khStore khArgs).1 =
    .ok (.generated khInv khItems 1 1) := by
  norm_num [generateInvoice, runTx, generateBody, findExistingInvoice, latestBy,
    generateFresh, findApplicableRate, applicableRate, betterRate, lockRate,
    listPendingEvents, monthRange, Ymd.toN, resolveInvoiceSequence,
    stampEvents, stampEvent, normalizedAmount, groupEvents, addToGroups,
    buildGroupItems, mkGroupItem, groupsSubtotal, List.foldl_cons, List.foldl_nil,
    trunc100_c4694, trunc100_c586851d125, trunc100_c4600, trunc100_c322, trunc100_c4900,
    khStore, khArgs, khRate, khEvent, khInv, khItems]

theorem kh_h : generateInvoice khStore khArgs =
    (.ok (.generated khInv khItems 1 1), (generateInvoice khStore khArgs).2) := by
  rw [← kh_eval1]

theorem kh_selected : genSelectedEvents khStore khArgs = [khEvent] := rfl

/-- Witness for C1 on the spec's sample data: the consumed event ends up
INVOICED with `amount_krw = 4600` and the frozen rate 39.1234. -/
theorem events_normalized_witness :
    findEventAny ((generateInvoice khStore khArgs).2).events 1 =
      some ⟨1, 1, "TH_SHIPPING", ⟨2026, 1, 3⟩, 1, PricingPolicy.thbBased,
        some 120, some 120, none, some 4600, some (391234 / 10000),
        EvStatus.invoiced, some 1, false⟩ := by
  have happ := events_normalized.1 khStore khArgs khInv khItems 1 1
    (generateInvoice khStore khArgs).2 kh_h (by decide) khEvent
    (by rw [kh_selected]; exact List.mem_singleton.mpr rfl)
  norm_num [khEvent, khInv, trunc100_c4694, trunc100_c586851d125] at happ ⊢
  exact happ

/-- Witness for C2 (amended) on the sample scenario (no `VAT_7`-coded
events): subtotal 4600 is the sum of the non-VAT items, total is exact. -/
theorem invoice_conservation_witness :
    khInv.subtotal_krw = sumNonVat khItems ∧
    khInv.total_krw = khInv.subtotal_krw + khInv.vat_krw := by
  refine invoice_conservation khStore khArgs khInv khItems 1 1
    (generateInvoice khStore khArgs).2 kh_h ?_
  rw [kh_selected]
  intro e he
  rw [List.mem_singleton.mp he]
  decide

/-- Witness for C5 on the sample scenario. -/
theorem vat_computation_witness :
    khInv.vat_krw = trunc100 (khInv.subtotal_krw * (7 / 100)) ∧
    khInv.total_krw = trunc100 (khInv.subtotal_krw + khInv.vat_krw) ∧
    ∃ (rest : List InvoiceItem) (vatId : Nat),
      khItems = rest ++
        [⟨vatId, khInv.id, "VAT_7", 1, khInv.vat_krw, khInv.vat_krw, false⟩] :=
  vat_computation.1 khStore khArgs khInv khItems 1 1
    (generateInvoice khStore khArgs).2 kh_h

/-- The C2 counterexample inputs: a single pending KRW_FIXED event whose
service code is literally `"VAT_7"`. -/
def cx2Event : BillingEvent :=
  { id := 1
    client_id := 1
    service_code := "VAT_7"
    event_date := ⟨2026, 1, 5⟩
    qty := 1
    pricing_policy := PricingPolicy.krwFixed
    unit_price_thb := none
    amount_thb := none
    unit_price_krw := none
    amount_krw := some 100
    fx_rate_thbkrw := none
    status := EvStatus.pending
    invoice_id := none
    deleted := false }

def cx2Store : Store :=
  { rates := [khRate]
    events := [cx2Event]
    invoices := []
    items := []
    seqs := []
    nextInvoiceId := 1
    nextItemId := 1
    nextSeqId := 1 }

def cx2Inv : Invoice :=
  { id := 1
    client_id := 1
    invoice_month := ⟨2026, 1⟩
    invoice_no := mkInvoiceNo 1 ⟨2026, 1⟩ 1
    status := InvStatus.draft
    fx_rate_thbkrw := 391234 / 10000
    subtotal_krw := 100
    vat_krw := 0
    total_krw := 100
    deleted := false }

def cx2Items : List InvoiceItem :=
  [⟨1, 1, "VAT_7", 1, 100, 100, false⟩, ⟨2, 1, "VAT_7", 1, 0, 0, false⟩]

theorem cx2_norm_lit (fx : ℚ) :
    normalizedAmount ⟨1, 1, "VAT_7", ⟨2026, 1, 5⟩, 1, PricingPolicy.krwFixed,
      none, none, none, some 100, none, EvStatus.pending, none, false⟩ fx =
      trunc100 100 := rfl

/-- Counterexample to C2 as stated: generation succeeds on an event whose
service code is `"VAT_7"`, producing subtotal 100, yet the sum of
`amount_krw` over the invoice's non-`VAT_7` items is 0 — conservation as
written fails on this invoice. -/
theorem invoice_conservation_counterexample :
    (generateInvoice cx2Store khArgs).1 = .ok (.generated cx2Inv cx2Items 1 1) ∧
    cx2Inv.subtotal_krw ≠ sumNonVat cx2Items := by
  constructor
  · norm_num [generateInvoice, runTx, generateBody, findExistingInvoice, latestBy,
      generateFresh, findApplicableRate, applicableRate, betterRate, lockRate,
      listPendingEvents, monthRange, Ymd.toN, resolveInvoiceSequence,
      stampEvents, stampEvent, cx2_norm_lit, groupEvents, addToGroups,
      buildGroupItems, mkGroupItem, groupsSubtotal, List.foldl_cons, List.foldl_nil,
      trunc100_c100, trunc100_c7,
      cx2Store, khArgs, khRate, cx2Event, cx2Inv, cx2Items]
  · norm_num [sumNonVat, cx2Inv, cx2Items, List.filter]

/-- An entirely empty store (no exchange rates at all). -/
def fxwEmpty : Store :=
  { rates := []
    events := []
    invoices := []
    items := []
    seqs := []
    nextInvoiceId := 1
    nextItemId := 1
    nextSeqId := 1 }

/-- Witness for C6: with a single qualifying rate the lookup returns it
maximally; with no rates at all generation fails `fxNotFound` leaving
the store untouched. -/
theorem fx_rate_selection_witness :
    (khRate ∈ [khRate] ∧ applicableRate ⟨2026, 1, 31⟩ khRate = true ∧
      ∀ r' ∈ [khRate], applicableRate ⟨2026, 1, 31⟩ r' = true → fxPriority r' khRate) ∧
    generateInvoice fxwEmpty khArgs = (.error .fxNotFound, fxwEmpty) :=
  ⟨fx_rate_selection.1 [khRate] ⟨2026, 1, 31⟩ khRate rfl,
   fx_rate_selection.2 fxwEmpty khArgs (Or.inl rfl) rfl⟩

def w7Draft : Invoice :=
  { id := 1
    client_id := 1
    invoice_month := ⟨2026, 1⟩
    invoice_no := "KRW-1-202601-0001"
    status := InvStatus.draft
    fx_rate_thbkrw := 35
    subtotal_krw := 4600
    vat_krw := 300
    total_krw := 4900
    deleted := false }

def w7Issued : Invoice :=
  { id := 2
    client_id := 1
    invoice_month := ⟨2026, 2⟩
    invoice_no := "KRW-1-202602-0001"
    status := InvStatus.issued
    fx_rate_thbkrw := 35
    subtotal_krw := 4600
    vat_krw := 300
    total_krw := 4900
    deleted := false }

def w7Store : Store :=
  { rates := []
    events := []
    invoices := [w7Draft, w7Issued]
    items := []
    seqs := []
    nextInvoiceId := 3
    nextItemId := 1
    nextSeqId := 1 }

/-- Witness for C7: a missing invoice fails `notFound`, issuing a
non-draft fails `invalidStatus`, issuing a draft and paying an issued
invoice succeed and bump the status, and the status ranks are monotone
under issue on this store. -/
theorem invoice_state_machine_witness :
    issueInvoice w7Store 9 = (.error .notFound, w7Store) ∧
    issueInvoice w7Store 2 = (.error .invalidStatus, w7Store) ∧
    (issueInvoice w7Store 1).1 = .ok (1, .issued) ∧
    lookupInvoice (issueInvoice w7Store 1).2 1 =
      some { w7Draft with status := InvStatus.issued } ∧
    (markInvoicePaid w7Store 2).1 = .ok (2, .paid) ∧
    lookupInvoice (markInvoicePaid w7Store 2).2 2 =
      some { w7Issued with status := InvStatus.paid } ∧
    invoicesMono w7Store.invoices ((issueInvoice w7Store 1).2).invoices := by
  have h3 := invoice_state_machine.2.2.1 w7Store 1 w7Draft rfl rfl
  have h6 := invoice_state_machine.2.2.2.2.2.1 w7Store 2 w7Issued rfl rfl
  exact ⟨invoice_state_machine.1 w7Store 9 rfl,
    invoice_state_machine.2.1 w7Store 2 w7Issued rfl (by decide),
    h3.1, h3.2, h6.1, h6.2,
    invoice_state_machine.2.2.2.2.2.2.2.1 w7Store 1 (by decide)⟩

def w9Inv : Invoice :=
  { id := 1
    client_id := 1
    invoice_month := ⟨2026, 1⟩
    invoice_no := "KRW-1-202601-0001"
    status := InvStatus.draft
    fx_rate_thbkrw := 35
    subtotal_krw := 4600
    vat_krw := 300
    total_krw := 4900
    deleted := false }

def w9Event : BillingEvent :=
  { id := 1
    client_id := 1
    service_code := "OUTBOUND_FEE"
    event_date := ⟨2026, 1, 7⟩
    qty := 3
    pricing_policy := PricingPolicy.krwFixed
    unit_price_thb := none
    amount_thb := none
    unit_price_krw := some 3500
    amount_krw := some 10500
    fx_rate_thbkrw := some 35
    status := EvStatus.invoiced
    invoice_id := some 1
    deleted := false }

def w9Store : Store :=
  { rates := []
    events := [w9Event]
    invoices := [w9Inv]
    items := []
    seqs := []
    nextInvoiceId := 2
    nextItemId := 1
    nextSeqId := 1 }

def w9LStore : Store :=
  { rates := []
    events := [w9Event]
    invoices := [{ w9Inv with status := InvStatus.issued }]
    items := []
    seqs := []
    nextInvoiceId := 2
    nextItemId := 1
    nextSeqId := 1 }

/-- Witness for C9: reverting an event whose invoice is a draft succeeds
and reports one updated row; reverting the same event once its invoice
is issued fails `eventsLocked` and leaves the store untouched. -/
theorem mark_events_pending_witness :
    (markEventsPending w9Store [1]).1 = .ok (targetedEvents w9Store [1]).length ∧
    markEventsPending w9LStore [1] = (.error .eventsLocked, w9LStore) := by
  constructor
  · refine (mark_events_pending_spec.2.2 w9Store [1] ?_ ?_ (by decide)).1
    · rw [show targetedEvents w9Store [1] = [w9Event] from rfl]
      exact List.cons_ne_nil _ _
    · intro e he
      rw [show targetedEvents w9Store [1] = [w9Event] from rfl] at he
      rw [List.mem_singleton.mp he]
      rfl
  · refine mark_events_pending_spec.2.1 w9LStore [1] w9Event ?_ rfl
    rw [show targetedEvents w9LStore [1] = [w9Event] from rfl]
    exact List.mem_singleton.mpr rfl
